import Mathlib

/-!
# pam_dumb_runtime_dir: a shallow embedding of `pam_sm_open_session`

The module consists of one C function, `pam_sm_open_session`
(src/pam_dumb_runtime_dir.c, lines 36-88).  It reads the login name from the
PAM handle, resolves it with `getpwnam`, formats the path
`RUNTIME_DIR_PARENT "/" uid`, creates the directory (or repairs the mode of an
existing entry), hands it to the user with `chown` and publishes the path in
the PAM environment as `XDG_RUNTIME_DIR`.

Everything the function calls lives outside the repository (libc, the kernel,
Linux-PAM).  The embedding therefore has three layers:

* `World`: the mutable state, a file system and the PAM environment;
* `Host`: what the surroundings decide (the build-time parent directory, the
  login name, the password database, the process credentials and umask, and
  which primitive fails for a reason that the `World` does not record);
* the primitives `mkdir`, `chmod`, `chown`, `asprintf`, `pam_misc_setenv`,
  modelled from their POSIX / Linux / Linux-PAM descriptions, and on top of
  them `pam_sm_open_session`, translated statement by statement from the C
  text.

The file system keeps names and files apart.  A name is a plain name of its
own file, one of several hard-linked names of a shared file, or a symbolic
link; `locate` follows symbolic links to the place where the file lives, and
`chmod` and `chown` act on that file, as the system calls do.  `mkdir` reads
the directory in which the new name lies: the new directory inherits its
set-group-ID bit and its default access control list.
-/

namespace DumbRuntimeDir

/-! ## Constants of the C headers -/

/-- PAM_SUCCESS of security/_pam_types.h. -/
def PAM_SUCCESS : Int := 0

/-- PAM_BUF_ERR of security/_pam_types.h (memory buffer error). -/
def PAM_BUF_ERR : Int := 5

/-- PAM_PERM_DENIED of security/_pam_types.h. -/
def PAM_PERM_DENIED : Int := 6

/-- PAM_SESSION_ERR of security/_pam_types.h. -/
def PAM_SESSION_ERR : Int := 14

/-- Width of `uid_t` and `gid_t` (unsigned 32-bit integers). -/
def UID_BITS : Nat := 32

/-- Width of `intmax_t` (signed 64-bit integer). -/
def INTMAX_BITS : Nat := 64

/-- The value `(uid_t)-1`, which `chown` reads as "leave this id alone". -/
def ID_UNCHANGED : Nat := 2 ^ UID_BITS - 1

/-- The set-group-ID bit S_ISGID of sys/stat.h. -/
def S_ISGID : Nat := 0o2000

/-- How many nested symbolic links a path resolution follows (MAXSYMLINKS of
Linux). -/
def MAXSYMLINKS : Nat := 40

/-- Values of `errno` that the modelled system calls may report. -/
inductive Errno where
  | EPERM
  | ENOENT
  | EACCES
  | EEXIST
  | ENOTDIR
  | ENOSPC
  | EROFS
  | ENAMETOOLONG
  | ELOOP
  | ENOMEM
  deriving DecidableEq

deriving instance DecidableEq for Except

/-! ## Data model -/

/-- Kind of a file.  The C code never looks at it. -/
inductive FileKind where
  | directory
  | regular
  deriving DecidableEq

/-- What `stat` reports about a file: kind, mode bits (the twelve bits 07777),
owner, group; and, for a directory, the permission bits that its default
access control list grants to new children (`none` when it has no default
list). -/
structure Inode where
  kind : FileKind
  mode : Nat
  uid : Nat
  gid : Nat
  default_acl : Option Nat
  deriving DecidableEq

/-- What a name is: the only name of its file (`file`), one of the names of
the shared file number `n` (`hardlink`), or a symbolic link to the name
`target`. -/
inductive Entry where
  | file
  | hardlink (n : Nat)
  | symlink (target : String)
  deriving DecidableEq

/-- Where a file lives: under its only name, or in the table of files that
have several names. -/
inductive Loc where
  | own (name : String)
  | shared (n : Nat)
  deriving DecidableEq

/-- The file system: what each name is, and the file at each place. -/
structure FileSystem where
  entry : String → Option Entry
  inode : Loc → Option Inode

/-- The PAM environment of one handle (`pam_getenv` / `pam_putenv`). -/
abbrev PamEnv := String → Option String

/-- The two fields of `struct passwd` that the code reads. -/
structure Passwd where
  pw_uid : Nat
  pw_gid : Nat
  deriving DecidableEq

/-- The mutable state the function acts on. -/
structure World where
  fs : FileSystem
  env : PamEnv

/-- Everything the surroundings decide for one invocation.

* `RUNTIME_DIR_PARENT` is the build-time macro (not defined in the C file);
* `pam_get_user` is the login name, `none` when the PAM call does not return
  PAM_SUCCESS;
* `getpwnam` is the password database, `none` standing for a NULL result;
* `asprintf_fails` says that `asprintf` returns -1 (allocation failure);
* `umask`, `euid`, `egid` are the file-creation mask and the effective ids of
  the calling process;
* `mkdir_errno`, `chmod_errno`, `chown_errno` make the system call fail with
  that error for a cause the `World` does not record (unwritable parent,
  read-only file system, missing privilege, ...);
* `putenv_fails` says that the allocation or the `pam_putenv` inside
  `pam_misc_setenv` fails. -/
structure Host where
  RUNTIME_DIR_PARENT : String
  pam_get_user : Option String
  getpwnam : String → Option Passwd
  asprintf_fails : Bool
  umask : Nat
  euid : Nat
  egid : Nat
  mkdir_errno : Option Errno
  chmod_errno : Option Errno
  chown_errno : Option Errno
  putenv_fails : Bool

/-- One call that acts on the file system or on the PAM environment, with its
arguments and its result (`none` is the return value 0 of a system call). -/
inductive Call where
  | mkdir (path : String) (mode : Nat) (result : Option Errno)
  | chmod (path : String) (mode : Nat) (result : Option Errno)
  | chown (path : String) (owner : Nat) (group : Nat) (result : Option Errno)
  | pam_misc_setenv (name : String) (value : String) (readonly : Int) (result : Int)
  deriving DecidableEq

/-- Result of one invocation: the returned status, the state left behind and
the calls issued, in order. -/
structure Outcome where
  rval : Int
  world : World
  trace : List Call

/-! ## The file system -/

/-- The place the name `p` leads to, following at most `fuel - 1` symbolic
links: `ENOENT` when a name on the way does not exist, `ELOOP` when the links
do not end. -/
def locate (entry : String → Option Entry) : Nat → String → Except Errno Loc
  | 0, _ => .error .ELOOP
  | fuel + 1, p =>
    match entry p with
    | none => .error .ENOENT
    | some .file => .ok (.own p)
    | some (.hardlink n) => .ok (.shared n)
    | some (.symlink t) => locate entry fuel t

/-- The place a path leads to in a file system. -/
def place (fs : FileSystem) (path : String) : Except Errno Loc :=
  locate fs.entry (MAXSYMLINKS + 1) path

/-- The system call `stat(path)`: the file the path leads to, symbolic links
followed. -/
def stat (fs : FileSystem) (path : String) : Except Errno Inode :=
  match place fs path with
  | .error e => .error e
  | .ok loc =>
    match fs.inode loc with
    | none => .error .ENOENT
    | some i => .ok i

/-- The file system in which the new name `path` is the only name of the new
file `i`. -/
def fs_create (fs : FileSystem) (path : String) (i : Inode) : FileSystem :=
  ⟨fun p => if p = path then some .file else fs.entry p,
   fun l => if l = .own path then some i else fs.inode l⟩

/-- The file system in which the file at `loc` is now `i`; no name changes. -/
def fs_update (fs : FileSystem) (loc : Loc) (i : Inode) : FileSystem :=
  ⟨fs.entry, fun l => if l = loc then some i else fs.inode l⟩

/-- Map update of the PAM environment. -/
def env_set (env : PamEnv) (name : String) (value : String) : PamEnv :=
  fun n => if n = name then some value else env n

/-- The name of the directory in which the last component of `path` lies
(trailing slashes dropped, then the last component, then the slashes before
it); "." for a path without a slash, "/" for a name in the root. -/
def dirname (path : String) : String :=
  let r := (path.data.reverse.dropWhile (fun c => c = '/')).dropWhile (fun c => c ≠ '/')
  if r = [] then "."
  else if r.dropWhile (fun c => c = '/') = [] then "/"
  else String.mk (r.dropWhile (fun c => c = '/')).reverse

/-! ## The primitives -/

/-- The conversion `(intmax_t)x` of a `uid_t` value: the operand is reduced to
the unsigned 32-bit range and then read as a signed 64-bit integer. -/
def intmax_of_uid (uid : Nat) : Int :=
  let u := uid % 2 ^ UID_BITS
  let m := u % 2 ^ INTMAX_BITS
  if m < 2 ^ (INTMAX_BITS - 1) then (m : Int) else (m : Int) - 2 ^ INTMAX_BITS

/-- The printf conversion `%jd`: an optional minus sign followed by the decimal
digits of the magnitude, most significant digit first. -/
def fmt_jd (v : Int) : String :=
  if v < 0 then "-" ++ String.mk (Nat.toDigits 10 v.natAbs)
  else String.mk (Nat.toDigits 10 v.toNat)

/-- What `asprintf(&path, "%s/%jd", parent, v)` stores in `path`. -/
def format_path (parent : String) (v : Int) : String :=
  parent ++ "/" ++ fmt_jd v

/-- The call `asprintf(&path, "%s/%jd", parent, v)`: `none` is the return
value -1. -/
def asprintf (h : Host) (parent : String) (v : Int) : Option String :=
  if h.asprintf_fails then none else some (format_path parent v)

/-- The path the function computes for a user id (lines 61-62). -/
def runtime_dir_path (parent : String) (uid : Nat) : String :=
  format_path (parent ++ "") (intmax_of_uid uid)

/-- The mode bits of a directory that `mkdir(path, mode)` creates in the
directory `pd`.  The permission bits of `mode` are filtered by the default
access control list of `pd` when it has one and by the umask of the process
otherwise, and the set-group-ID bit of `pd` is inherited. -/
def created_mode (h : Host) (pd : Inode) (mode : Nat) : Nat :=
  let perm :=
    match pd.default_acl with
    | some a => (mode &&& 0o777) &&& (a &&& 0o777)
    | none => (mode &&& 0o777) &&& (0o777 ^^^ (h.umask &&& 0o777))
  if pd.mode &&& S_ISGID = 0 then perm else perm ||| S_ISGID

/-- The file that a successful `mkdir(path, mode)` creates in the directory
`pd`: a directory with the mode `created_mode`, owned by the effective user id
of the caller; its group is the effective group id, or the group of `pd` when
`pd` has the set-group-ID bit; it inherits the default access control list. -/
def new_directory (h : Host) (pd : Inode) (mode : Nat) : Inode :=
  ⟨.directory, created_mode h pd mode, h.euid,
   if pd.mode &&& S_ISGID = 0 then h.egid else pd.gid, pd.default_acl⟩

/-- The file after a successful `chmod(path, mode)`: the twelve mode bits
become `mode`; the umask plays no part. -/
def set_mode (i : Inode) (mode : Nat) : Inode :=
  { i with mode := mode &&& 0o7777 }

/-- The file after a successful `chown(path, owner, group)`: an id equal to
`(uid_t)-1` leaves that id of the file as it is.  The mode bits are kept: the
function calls `chown` on a directory or on a file whose mode `chmod` has just
set to 0700, where no set-user-ID or set-group-ID bit is cleared. -/
def set_owner (i : Inode) (owner : Nat) (group : Nat) : Inode :=
  { i with uid := if owner = ID_UNCHANGED then i.uid else owner,
           gid := if group = ID_UNCHANGED then i.gid else group }

/-- The system call `mkdir(path, mode)`.  The directory in which the name lies
must exist and be a directory (`ENOENT`, `ELOOP`, `ENOTDIR`); the call fails
with `EEXIST` when the name exists, whatever it is, a dangling symbolic link
included; otherwise the name becomes the name of a `new_directory`. -/
def mkdir (h : Host) (fs : FileSystem) (path : String) (mode : Nat) :
    Except Errno FileSystem :=
  match h.mkdir_errno with
  | some e => .error e
  | none =>
    match stat fs (dirname path) with
    | .error e => .error e
    | .ok pd =>
      if pd.kind ≠ .directory then .error .ENOTDIR
      else
        match fs.entry path with
        | some _ => .error .EEXIST
        | none => .ok (fs_create fs path (new_directory h pd mode))

/-- The system call `chmod(path, mode)`.  It follows symbolic links and applies
`set_mode` to the file the path leads to, whatever its kind. -/
def chmod (h : Host) (fs : FileSystem) (path : String) (mode : Nat) :
    Except Errno FileSystem :=
  match h.chmod_errno with
  | some e => .error e
  | none =>
    match place fs path with
    | .error e => .error e
    | .ok loc =>
      match fs.inode loc with
      | none => .error .ENOENT
      | some i => .ok (fs_update fs loc (set_mode i mode))

/-- The system call `chown(path, owner, group)`.  It follows symbolic links and
applies `set_owner` to the file the path leads to, whatever its kind. -/
def chown (h : Host) (fs : FileSystem) (path : String) (owner : Nat) (group : Nat) :
    Except Errno FileSystem :=
  match h.chown_errno with
  | some e => .error e
  | none =>
    match place fs path with
    | .error e => .error e
    | .ok loc =>
      match fs.inode loc with
      | none => .error .ENOENT
      | some i => .ok (fs_update fs loc (set_owner i owner group))

/-- The Linux-PAM call `pam_misc_setenv(pamh, name, value, readonly)` of
libpam_misc.  With a non-zero `readonly` a variable that `pam_getenv` already
finds is left alone and the call returns PAM_PERM_DENIED ("the replacement will
only be applied if the last argument, readonly, is zero"); otherwise
`name=value` is handed to `pam_putenv`, and PAM_BUF_ERR stands for a failure of
that step. -/
def pam_misc_setenv (h : Host) (env : PamEnv) (name : String) (value : String)
    (readonly : Int) : Int × PamEnv :=
  if readonly ≠ 0 ∧ (env name).isSome then (PAM_PERM_DENIED, env)
  else if h.putenv_fails then (PAM_BUF_ERR, env)
  else (PAM_SUCCESS, env_set env name value)

/-! ## The function -/

/-- Lines 76-87 of the C file: `chown`, then the publication of the path, then
the common exit.  `tr` holds the calls issued so far. -/
def chown_and_publish (h : Host) (pw : Passwd) (path : String) (w : World)
    (tr : List Call) : Outcome :=
  match chown h w.fs path pw.pw_uid pw.pw_gid with
  | .error e =>
    ⟨PAM_SESSION_ERR, w, tr ++ [.chown path pw.pw_uid pw.pw_gid (some e)]⟩
  | .ok fs2 =>
    let r := pam_misc_setenv h w.env "XDG_RUNTIME_DIR" path 1
    let tr2 := tr ++ [.chown path pw.pw_uid pw.pw_gid none,
                      .pam_misc_setenv "XDG_RUNTIME_DIR" path 1 r.1]
    if r.1 ≠ PAM_SUCCESS then ⟨PAM_SESSION_ERR, ⟨fs2, r.2⟩, tr2⟩
    else ⟨PAM_SUCCESS, ⟨fs2, r.2⟩, tr2⟩

/-- The function `pam_sm_open_session` (lines 36-88). -/
def pam_sm_open_session (h : Host) (w : World) : Outcome :=
  let rval := PAM_SESSION_ERR
  match h.pam_get_user with
  | none => ⟨rval, w, []⟩
  | some user =>
    match h.getpwnam user with
    | none => ⟨rval, w, []⟩
    | some pw =>
      match asprintf h (h.RUNTIME_DIR_PARENT ++ "") (intmax_of_uid pw.pw_uid) with
      | none => ⟨rval, w, []⟩
      | some path =>
        match mkdir h w.fs path 0o700 with
        | .ok fs1 =>
          chown_and_publish h pw path ⟨fs1, w.env⟩ [.mkdir path 0o700 none]
        | .error e =>
          if e ≠ .EEXIST then ⟨rval, w, [.mkdir path 0o700 (some e)]⟩
          else
            match chmod h w.fs path 0o700 with
            | .error e2 =>
              ⟨rval, w, [.mkdir path 0o700 (some e), .chmod path 0o700 (some e2)]⟩
            | .ok fs1 =>
              chown_and_publish h pw path ⟨fs1, w.env⟩
                [.mkdir path 0o700 (some e), .chmod path 0o700 none]

/-- The directory `pd` and the process let `mkdir(path, 0700)` give the new
directory the mode 0700 exactly: `pd` has no set-group-ID bit to pass on, and
the owner bits 0700 are granted by the default access control list of `pd`
when it has one, and are not cleared by the umask otherwise. -/
def KeepsRequestedMode (h : Host) (pd : Inode) : Prop :=
  pd.mode &&& S_ISGID = 0 ∧
  match pd.default_acl with
  | some a => a &&& 0o700 = 0o700
  | none => h.umask &&& 0o700 = 0

/-! ## Concrete scenario of the specification: alice, uid 1000, gid 1000 -/

/-- A host on which everything works: parent `/run/user`, login name alice,
root credentials, umask 022. -/
def aliceHost : Host where
  RUNTIME_DIR_PARENT := "/run/user"
  pam_get_user := some "alice"
  getpwnam := fun n => if n = "alice" then some ⟨1000, 1000⟩ else none
  asprintf_fails := false
  umask := 0o022
  euid := 0
  egid := 0
  mkdir_errno := none
  chmod_errno := none
  chown_errno := none
  putenv_fails := false

/-- A file system that holds only the parent directory, of mode `mode`, owned
by root, with the default access control list `acl`. -/
def parentOnlyFs (mode : Nat) (acl : Option Nat) : FileSystem :=
  ⟨fun p => if p = "/run/user" then some .file else none,
   fun l => if l = .own "/run/user" then some ⟨.directory, mode, 0, 0, acl⟩ else none⟩

/-- A file system that holds only the parent directory, mode 0755. -/
def freshFs : FileSystem := parentOnlyFs 0o755 none

/-- An empty PAM environment. -/
def emptyEnv : PamEnv := fun _ => none

/-- The state before the first login of alice. -/
def freshWorld : World := ⟨freshFs, emptyEnv⟩

/-- The state before the first login of alice when the parent directory has
the set-group-ID bit (mode 02755). -/
def setgidWorld : World := ⟨parentOnlyFs 0o2755 none, emptyEnv⟩

/-- The state before the first login of alice when the parent directory has a
default access control list that grants the owner r-x only. -/
def aclWorld : World := ⟨parentOnlyFs 0o755 (some 0o500), emptyEnv⟩

/-- The host of alice with a umask that clears the owner write and execute
bits for new files. -/
def maskedHost : Host := { aliceHost with umask := 0o277 }

/-- The host of alice when the password database gives her the uid
4294967295, which is `(uid_t)-1`. -/
def reservedUidHost : Host :=
  { aliceHost with getpwnam := fun n => if n = "alice" then some ⟨4294967295, 1000⟩ else none }

/-- The host of alice when the password database gives her the gid
4294967295, which is `(gid_t)-1`. -/
def reservedGidHost : Host :=
  { aliceHost with getpwnam := fun n => if n = "alice" then some ⟨1000, 4294967295⟩ else none }

/-- The host of alice when the caller is not allowed to `chmod`. -/
def noChmodHost : Host := { aliceHost with chmod_errno := some .EPERM }

/-- The file system in which `name` is now the entry `e`; no file changes. -/
def fs_link (fs : FileSystem) (name : String) (e : Entry) : FileSystem :=
  ⟨fun p => if p = name then some e else fs.entry p, fs.inode⟩

/-- The state before a login of alice when a regular file of mode 0644 owned
by root sits at her path. -/
def fileWorld : World :=
  ⟨fs_create freshFs "/run/user/1000" ⟨.regular, 0o644, 0, 0, none⟩, emptyEnv⟩

/-- The state before a login of alice when her directory has drifted to mode
0755 owned by root. -/
def driftedWorld : World :=
  ⟨fs_create freshFs "/run/user/1000" ⟨.directory, 0o755, 0, 0, none⟩, emptyEnv⟩

/-- The state before a login of alice when her path is a symbolic link to the
directory `/srv/app`, mode 0755 owned by root. -/
def linkWorld : World :=
  ⟨fs_link (fs_create freshFs "/srv/app" ⟨.directory, 0o755, 0, 0, none⟩)
      "/run/user/1000" (.symlink "/srv/app"),
   emptyEnv⟩

/-- The state before a login of alice when her path is a symbolic link to
`/run/user/1001`, the runtime directory of the user 1001. -/
def crossWorld : World :=
  ⟨fs_link (fs_create freshFs "/run/user/1001" ⟨.directory, 0o700, 1001, 1001, none⟩)
      "/run/user/1000" (.symlink "/run/user/1001"),
   emptyEnv⟩

/-- The state before a login of alice when her path is a second hard-linked
name of the regular file `/run/sshd.pid`, mode 0644 owned by root. -/
def hardlinkWorld : World :=
  ⟨fs_link (fs_link (fs_update freshFs (.shared 7) ⟨.regular, 0o644, 0, 0, none⟩)
      "/run/sshd.pid" (.hardlink 7)) "/run/user/1000" (.hardlink 7),
   emptyEnv⟩

/-- The state before the first login of alice when another path,
`/home/alice/rt`, is a symbolic link to her path, which does not exist yet. -/
def danglingWorld : World :=
  ⟨fs_link freshFs "/home/alice/rt" (.symlink "/run/user/1000"), emptyEnv⟩

/-- A host whose login name is not in the password database. -/
def strangerHost : Host := { aliceHost with pam_get_user := some "nonexistent-user" }

/-- A host on which `mkdir` fails because the parent is not writable. -/
def deniedHost : Host := { aliceHost with mkdir_errno := some .EACCES }

/-! ## Reading a decimal string back -/

/-- Value of one decimal digit character. -/
def digit_value (c : Char) : Nat := c.toNat - 48

/-- Value of a digit string read in base ten, most significant digit first. -/
def decimal_value (s : List Char) : Nat :=
  s.foldl (fun a c => 10 * a + digit_value c) 0

/-- The canonical decimal representation of `n`: a non-empty string of decimal
digits whose value is `n`, with no sign and with a leading zero only when the
string is exactly "0". -/
def IsCanonicalDecimal (s : String) (n : Nat) : Prop :=
  s.data ≠ [] ∧ (∀ c ∈ s.data, c.isDigit = true) ∧ decimal_value s.data = n ∧
    (s.data.head? = some '0' → s.data = ['0'])

/-! ## Shapes of a successful run and views of a call -/

/-- The outcome of a successful run that created the directory in `pd`. -/
def created_outcome (h : Host) (w : World) (pw : Passwd) (path : String) (pd : Inode) :
    Outcome :=
  ⟨PAM_SUCCESS,
   ⟨fs_update (fs_create w.fs path (new_directory h pd 0o700)) (.own path)
      (set_owner (new_directory h pd 0o700) pw.pw_uid pw.pw_gid),
    env_set w.env "XDG_RUNTIME_DIR" path⟩,
   [.mkdir path 0o700 none, .chown path pw.pw_uid pw.pw_gid none,
    .pam_misc_setenv "XDG_RUNTIME_DIR" path 1 PAM_SUCCESS]⟩

/-- The outcome of a successful run that found the path leading to the file
`i` at `loc`. -/
def repaired_outcome (w : World) (pw : Passwd) (path : String) (loc : Loc) (i : Inode) :
    Outcome :=
  ⟨PAM_SUCCESS,
   ⟨fs_update w.fs loc (set_owner (set_mode i 0o700) pw.pw_uid pw.pw_gid),
    env_set w.env "XDG_RUNTIME_DIR" path⟩,
   [.mkdir path 0o700 (some .EEXIST), .chmod path 0o700 none,
    .chown path pw.pw_uid pw.pw_gid none,
    .pam_misc_setenv "XDG_RUNTIME_DIR" path 1 PAM_SUCCESS]⟩

/-- The string a call is about: the path of a file-system call, the value of
an environment publication. -/
def Call.target : Call → String
  | .mkdir p _ _ => p
  | .chmod p _ _ => p
  | .chown p _ _ _ => p
  | .pam_misc_setenv _ v _ _ => v

/-- The path argument of a file-system call; `none` for a call that does not
act on the file system. -/
def Call.fsPath : Call → Option String
  | .mkdir p _ _ => some p
  | .chmod p _ _ => some p
  | .chown p _ _ _ => some p
  | .pam_misc_setenv _ _ _ _ => none

/-- Whether the call reported a failure. -/
def Call.failed : Call → Bool
  | .mkdir _ _ r => r.isSome
  | .chmod _ _ r => r.isSome
  | .chown _ _ _ r => r.isSome
  | .pam_misc_setenv _ _ _ r => decide (r ≠ PAM_SUCCESS)

/-- Whether the call is a `chmod`. -/
def Call.isChmod : Call → Bool
  | .chmod _ _ _ => true
  | _ => false

/-- Whether the call is a `chown`. -/
def Call.isChown : Call → Bool
  | .chown _ _ _ _ => true
  | _ => false

/-! ## Lemmas on the decimal rendering and on the path -/

theorem digitChar_value : ∀ d, d < 10 → digit_value (Nat.digitChar d) = d := by
  decide

theorem digitChar_isDigit : ∀ d, d < 10 → (Nat.digitChar d).isDigit = true := by
  decide

theorem digitChar_ne_zero : ∀ d, d < 10 → d ≠ 0 → Nat.digitChar d ≠ '0' := by
  decide

theorem toDigitsCore_acc (f : Nat) : ∀ (n : Nat) (ds : List Char),
    Nat.toDigitsCore 10 f n ds = Nat.toDigitsCore 10 f n [] ++ ds := by
  induction f with
  | zero => intro n ds; simp [Nat.toDigitsCore]
  | succ f ih =>
    intro n ds
    simp only [Nat.toDigitsCore]
    split
    · simp
    · rw [ih (n / 10) (Nat.digitChar (n % 10) :: ds), ih (n / 10) [Nat.digitChar (n % 10)]]
      simp

theorem decimal_value_snoc (s : List Char) (c : Char) :
    decimal_value (s ++ [c]) = 10 * decimal_value s + digit_value c := by
  simp [decimal_value, List.foldl_append]

theorem toDigitsCore_value (f : Nat) : ∀ n, n < f →
    decimal_value (Nat.toDigitsCore 10 f n []) = n := by
  induction f with
  | zero => intro n hn; omega
  | succ f ih =>
    intro n hn
    simp only [Nat.toDigitsCore]
    split
    · rename_i h0
      have hlt : n < 10 := by omega
      have := digitChar_value (n % 10) (Nat.mod_lt _ (by decide))
      simp [decimal_value, this]
      omega
    · rename_i h0
      rw [toDigitsCore_acc, decimal_value_snoc, ih (n / 10) (by omega),
        digitChar_value (n % 10) (Nat.mod_lt _ (by decide))]
      omega

theorem toDigits_value (n : Nat) : decimal_value (Nat.toDigits 10 n) = n :=
  toDigitsCore_value (n + 1) n (Nat.lt_succ_self n)

theorem toDigits_injective (a b : Nat) (hab : Nat.toDigits 10 a = Nat.toDigits 10 b) :
    a = b := by
  have := congrArg decimal_value hab
  simpa [toDigits_value] using this

theorem toDigitsCore_isDigit (f : Nat) : ∀ n, ∀ c ∈ Nat.toDigitsCore 10 f n [],
    c.isDigit = true := by
  induction f with
  | zero => intro n c hc; simp [Nat.toDigitsCore] at hc
  | succ f ih =>
    intro n c hc
    simp only [Nat.toDigitsCore] at hc
    split at hc
    · simp at hc
      subst hc
      exact digitChar_isDigit _ (Nat.mod_lt _ (by decide))
    · rw [toDigitsCore_acc] at hc
      simp at hc
      rcases hc with hc | hc
      · exact ih _ c hc
      · subst hc
        exact digitChar_isDigit _ (Nat.mod_lt _ (by decide))

theorem toDigitsCore_ne_nil (f : Nat) : ∀ n, n < f → Nat.toDigitsCore 10 f n [] ≠ [] := by
  induction f with
  | zero => intro n hn; omega
  | succ f ih =>
    intro n hn
    simp only [Nat.toDigitsCore]
    split
    · simp
    · rw [toDigitsCore_acc]; simp

theorem toDigitsCore_head (f : Nat) : ∀ n, n < f → n ≠ 0 →
    (Nat.toDigitsCore 10 f n []).head? ≠ some '0' := by
  induction f with
  | zero => intro n hn; omega
  | succ f ih =>
    intro n hn hn0
    simp only [Nat.toDigitsCore]
    split
    · rename_i h0
      have hlt : n % 10 ≠ 0 := by omega
      simp
      exact digitChar_ne_zero _ (Nat.mod_lt _ (by decide)) hlt
    · rename_i h0
      rw [toDigitsCore_acc]
      have hne := toDigitsCore_ne_nil f (n / 10) (by omega)
      have hh := ih (n / 10) (by omega) h0
      cases hd : Nat.toDigitsCore 10 f (n / 10) [] with
      | nil => exact absurd hd hne
      | cons x xs => rw [hd] at hh; simpa using hh

theorem repr_canonical (n : Nat) : IsCanonicalDecimal (Nat.repr n) n := by
  refine ⟨?_, ?_, ?_, ?_⟩
  · exact toDigitsCore_ne_nil (n + 1) n (Nat.lt_succ_self n)
  · exact toDigitsCore_isDigit (n + 1) n
  · exact toDigits_value n
  · intro hh
    by_cases hn : n = 0
    · subst hn; rfl
    · exact absurd hh (toDigitsCore_head (n + 1) n (Nat.lt_succ_self n) hn)

theorem intmax_of_uid_eq (uid : Nat) (hu : uid < 2 ^ 32) : intmax_of_uid uid = (uid : Int) := by
  unfold intmax_of_uid UID_BITS INTMAX_BITS
  have h1 : uid % 2 ^ 32 = uid := Nat.mod_eq_of_lt hu
  have h2 : uid % 2 ^ 64 = uid := Nat.mod_eq_of_lt (by omega)
  simp only [h1, h2]
  rw [if_pos (by omega)]

theorem fmt_jd_ofNat (n : Nat) : fmt_jd (n : Int) = Nat.repr n := by
  unfold fmt_jd
  rw [if_neg (by omega)]
  rfl

theorem runtime_dir_path_eq (parent : String) (uid : Nat) (hu : uid < 2 ^ 32) :
    runtime_dir_path parent uid = parent ++ "/" ++ Nat.repr uid := by
  unfold runtime_dir_path format_path
  rw [intmax_of_uid_eq uid hu, fmt_jd_ofNat]
  simp

theorem string_append_left_cancel (a b c : String) (h : a ++ b = a ++ c) : b = c := by
  have := congrArg String.data h
  simp only [String.data_append] at this
  exact String.ext (List.append_cancel_left this)

theorem runtime_dir_path_injective (parent : String) (u1 u2 : Nat)
    (h1 : u1 < 2 ^ 32) (h2 : u2 < 2 ^ 32)
    (h : runtime_dir_path parent u1 = runtime_dir_path parent u2) : u1 = u2 := by
  rw [runtime_dir_path_eq parent u1 h1, runtime_dir_path_eq parent u2 h2] at h
  have hr : Nat.repr u1 = Nat.repr u2 := string_append_left_cancel _ _ _ h
  have hd : (Nat.repr u1).data = (Nat.repr u2).data := congrArg String.data hr
  exact toDigits_injective u1 u2 hd

/-! ## Lemmas on the mode of a new directory -/

set_option maxRecDepth 100000 in
theorem owner_bits_umask : ∀ v, v < 512 → v &&& 0o700 = 0 →
    (0o700 &&& 0o777) &&& (0o777 ^^^ v) = 0o700 := by
  decide

set_option maxRecDepth 100000 in
theorem owner_bits_acl : ∀ v, v < 512 → v &&& 0o700 = 0o700 →
    (0o700 &&& 0o777) &&& v = 0o700 := by
  decide

theorem and_0o777 (u : Nat) : u &&& 0o777 = u % 512 := by
  have := Nat.and_pow_two_sub_one_eq_mod u 9
  simpa using this

theorem and_0o777_0o700 (u : Nat) : (u &&& 0o777) &&& 0o700 = u &&& 0o700 := by
  rw [Nat.and_assoc]
  rfl

theorem created_mode_keeps (h : Host) (pd : Inode) (hk : KeepsRequestedMode h pd) :
    created_mode h pd 0o700 = 0o700 := by
  obtain ⟨hg, hperm⟩ := hk
  unfold created_mode
  simp only [hg, if_true]
  cases hacl : pd.default_acl with
  | some a =>
    rw [hacl] at hperm
    simp only at hperm ⊢
    have h1 : (a &&& 0o777) &&& 0o700 = 0o700 := by rw [and_0o777_0o700]; exact hperm
    rw [and_0o777 a] at h1 ⊢
    exact owner_bits_acl (a % 512) (Nat.mod_lt _ (by decide)) h1
  | none =>
    rw [hacl] at hperm
    simp only at hperm ⊢
    have h1 : (h.umask &&& 0o777) &&& 0o700 = 0 := by rw [and_0o777_0o700]; exact hperm
    rw [and_0o777 h.umask] at h1 ⊢
    exact owner_bits_umask (h.umask % 512) (Nat.mod_lt _ (by decide)) h1

theorem set_owner_set_mode_idem (x : Inode) (u g : Nat) (hx : x.mode = 0o700) :
    set_owner (set_mode (set_owner x u g) 0o700) u g = set_owner x u g := by
  cases x with
  | mk k m o gg acl =>
    simp only at hx
    subst hx
    simp only [set_owner, set_mode]
    have h7 : 0o700 &&& 0o7777 = 0o700 := by decide
    by_cases hu : u = ID_UNCHANGED <;> by_cases hg : g = ID_UNCHANGED <;> simp [hu, hg, h7]

/-! ## Lemmas on the file system -/

theorem env_set_same (env : PamEnv) (n v : String) : env_set env n v n = some v := by
  simp [env_set]

theorem env_set_other (env : PamEnv) (n m v : String) (hm : m ≠ n) :
    env_set env n v m = env m := by
  simp [env_set, hm]

theorem fs_update_inode_same (fs : FileSystem) (loc : Loc) (i : Inode) :
    (fs_update fs loc i).inode loc = some i := by
  simp [fs_update]

theorem fs_update_inode_other (fs : FileSystem) (loc l : Loc) (i : Inode) (hl : l ≠ loc) :
    (fs_update fs loc i).inode l = fs.inode l := by
  simp [fs_update, hl]

theorem fs_update_update (fs : FileSystem) (loc : Loc) (i j : Inode) :
    fs_update (fs_update fs loc i) loc j = fs_update fs loc j := by
  unfold fs_update
  congr 1
  funext l
  by_cases hl : l = loc <;> simp [hl]

theorem fs_update_self (fs : FileSystem) (loc : Loc) (i : Inode) (hi : fs.inode loc = some i) :
    fs_update fs loc i = fs := by
  cases fs with
  | mk entry inode =>
    unfold fs_update
    congr 1
    funext l
    by_cases hl : l = loc
    · subst hl; simpa using hi.symm
    · simp [hl]

theorem place_fs_update (fs : FileSystem) (loc : Loc) (i : Inode) (p : String) :
    place (fs_update fs loc i) p = place fs p := rfl

/-- A path resolution fails only with ENOENT or ELOOP. -/
theorem locate_error (entry : String → Option Entry) (n : Nat) : ∀ p e,
    locate entry n p = .error e → e = .ENOENT ∨ e = .ELOOP := by
  induction n with
  | zero =>
    intro p e he
    simp only [locate] at he
    injection he with he
    exact Or.inr he.symm
  | succ n ih =>
    intro p e he
    simp only [locate] at he
    split at he
    · injection he with he
      exact Or.inl he.symm
    · exact absurd he (by simp)
    · exact absurd he (by simp)
    · exact ih _ e he

/-- A path that leads to the own file of a name: that name is a plain name. -/
theorem locate_own (entry : String → Option Entry) (n : Nat) : ∀ p q,
    locate entry n p = .ok (.own q) → entry q = some .file := by
  induction n with
  | zero => intro p q he; simp [locate] at he
  | succ n ih =>
    intro p q he
    simp only [locate] at he
    split at he
    · exact absurd he (by simp)
    · rename_i hp
      injection he with he
      injection he with he
      rw [← he]; exact hp
    · injection he with he
      exact absurd he (by simp)
    · exact ih _ q he

/-- A new name does not disturb the resolutions that succeeded before. -/
theorem locate_add (entry : String → Option Entry) (q : String) (e : Entry)
    (hq : entry q = none) (n : Nat) : ∀ p loc,
    locate entry n p = .ok loc →
    locate (fun x => if x = q then some e else entry x) n p = .ok loc := by
  induction n with
  | zero => intro p loc he; simp [locate] at he
  | succ n ih =>
    intro p loc he
    have hpq : p ≠ q := by
      intro hpq
      subst hpq
      simp [locate, hq] at he
    simp only [locate, if_neg hpq] at he ⊢
    split at he
    · exact absurd he (by simp)
    · exact he
    · exact he
    · exact ih _ loc he

theorem place_plain (fs : FileSystem) (p : String) (hp : fs.entry p = some .file) :
    place fs p = .ok (.own p) := by
  simp [place, locate, hp]

theorem place_absent (fs : FileSystem) (p : String) (hp : fs.entry p = none) :
    place fs p = .error .ENOENT := by
  simp [place, locate, hp]

theorem place_fs_create_self (fs : FileSystem) (path : String) (i : Inode) :
    place (fs_create fs path i) path = .ok (.own path) := by
  simp [place, locate, fs_create]

theorem place_fs_create (fs : FileSystem) (path : String) (i : Inode)
    (hp : fs.entry path = none) (p : String) (loc : Loc) (hl : place fs p = .ok loc) :
    place (fs_create fs path i) p = .ok loc ∧ loc ≠ .own path := by
  refine ⟨locate_add fs.entry path .file hp _ p loc hl, ?_⟩
  intro hloc
  subst hloc
  have := locate_own fs.entry _ p path hl
  rw [hp] at this
  exact absurd this (by simp)

theorem stat_ok (fs : FileSystem) (p : String) (i : Inode) :
    stat fs p = .ok i ↔ ∃ loc, place fs p = .ok loc ∧ fs.inode loc = some i := by
  unfold stat
  constructor
  · intro hs
    cases hp : place fs p with
    | error e => simp [hp] at hs
    | ok loc =>
      cases hi : fs.inode loc with
      | none => simp [hp, hi] at hs
      | some j =>
        simp only [hp, hi] at hs
        injection hs with hs
        exact ⟨loc, rfl, by rw [← hs]; exact hi⟩
  · rintro ⟨loc, hp, hi⟩
    simp [hp, hi]

theorem stat_of_place (fs : FileSystem) (p : String) (loc : Loc) (hp : place fs p = .ok loc) :
    stat fs p = match fs.inode loc with
      | none => .error .ENOENT
      | some i => .ok i := by
  simp only [stat, hp]

theorem stat_error (fs : FileSystem) (p : String) (e : Errno) (hs : stat fs p = .error e) :
    e = .ENOENT ∨ e = .ELOOP := by
  unfold stat at hs
  cases hp : place fs p with
  | error e2 =>
    simp only [hp] at hs
    injection hs with hs
    subst hs
    exact locate_error _ _ _ _ hp
  | ok loc =>
    cases hi : fs.inode loc with
    | none =>
      simp only [hp, hi] at hs
      injection hs with hs
      exact Or.inl hs.symm
    | some j => simp [hp, hi] at hs

/-! ## Lemmas on the primitives -/

theorem mkdir_ok (h : Host) (fs fs1 : FileSystem) (path : String) (mode : Nat)
    (hm : mkdir h fs path mode = .ok fs1) :
    h.mkdir_errno = none ∧ fs.entry path = none ∧
    ∃ pd, stat fs (dirname path) = .ok pd ∧ pd.kind = .directory ∧
      fs1 = fs_create fs path (new_directory h pd mode) := by
  unfold mkdir at hm
  cases he : h.mkdir_errno with
  | some e => simp [he] at hm
  | none =>
    cases hs : stat fs (dirname path) with
    | error e => simp [he, hs] at hm
    | ok pd =>
      by_cases hk : pd.kind = .directory
      · cases hf : fs.entry path with
        | some x => simp [he, hs, hk, hf] at hm
        | none =>
          simp only [he, hs, hk, hf, ne_eq, not_true_eq_false, if_false] at hm
          injection hm with hm
          exact ⟨rfl, rfl, pd, rfl, hk, hm.symm⟩
      · simp [he, hs, hk] at hm

theorem mkdir_created (h : Host) (fs : FileSystem) (path : String) (mode : Nat) (pd : Inode)
    (he : h.mkdir_errno = none) (hs : stat fs (dirname path) = .ok pd)
    (hk : pd.kind = .directory) (hf : fs.entry path = none) :
    mkdir h fs path mode = .ok (fs_create fs path (new_directory h pd mode)) := by
  simp [mkdir, he, hs, hk, hf]

theorem mkdir_exists (h : Host) (fs : FileSystem) (path : String) (mode : Nat) (pd : Inode)
    (x : Entry) (he : h.mkdir_errno = none) (hs : stat fs (dirname path) = .ok pd)
    (hk : pd.kind = .directory) (hf : fs.entry path = some x) :
    mkdir h fs path mode = .error .EEXIST := by
  simp [mkdir, he, hs, hk, hf]

theorem mkdir_injected (h : Host) (fs : FileSystem) (path : String) (mode : Nat) (e : Errno)
    (he : h.mkdir_errno = some e) : mkdir h fs path mode = .error e := by
  simp [mkdir, he]

/-- Why `mkdir` reports EEXIST: the host said so, or the parent is a directory
and the name exists. -/
theorem mkdir_eexist (h : Host) (fs : FileSystem) (path : String) (mode : Nat)
    (hm : mkdir h fs path mode = .error .EEXIST) :
    h.mkdir_errno = some .EEXIST ∨
    (h.mkdir_errno = none ∧
      (∃ pd, stat fs (dirname path) = .ok pd ∧ pd.kind = .directory) ∧
      ∃ x, fs.entry path = some x) := by
  unfold mkdir at hm
  cases he : h.mkdir_errno with
  | some e =>
    simp only [he] at hm
    injection hm with hm
    left; rw [hm]
  | none =>
    right
    cases hs : stat fs (dirname path) with
    | error e =>
      simp only [he, hs] at hm
      injection hm with hm
      subst hm
      rcases stat_error _ _ _ hs with h1 | h1 <;> exact absurd h1 (by decide)
    | ok pd =>
      by_cases hk : pd.kind = .directory
      · cases hf : fs.entry path with
        | some x => exact ⟨rfl, ⟨pd, rfl, hk⟩, x, rfl⟩
        | none => simp [he, hs, hk, hf] at hm
      · simp [he, hs, hk] at hm

theorem chmod_ok (h : Host) (fs fs1 : FileSystem) (path : String) (mode : Nat)
    (hm : chmod h fs path mode = .ok fs1) :
    h.chmod_errno = none ∧
    ∃ loc i, place fs path = .ok loc ∧ fs.inode loc = some i ∧
      fs1 = fs_update fs loc (set_mode i mode) := by
  unfold chmod at hm
  cases he : h.chmod_errno with
  | some e => simp [he] at hm
  | none =>
    cases hp : place fs path with
    | error e => simp [he, hp] at hm
    | ok loc =>
      cases hf : fs.inode loc with
      | none => simp [he, hp, hf] at hm
      | some i =>
        simp only [he, hp, hf] at hm
        injection hm with hm
        exact ⟨rfl, loc, i, rfl, hf, hm.symm⟩

theorem chmod_done (h : Host) (fs : FileSystem) (path : String) (mode : Nat) (loc : Loc)
    (i : Inode) (he : h.chmod_errno = none) (hp : place fs path = .ok loc)
    (hf : fs.inode loc = some i) :
    chmod h fs path mode = .ok (fs_update fs loc (set_mode i mode)) := by
  simp [chmod, he, hp, hf]

theorem chown_ok (h : Host) (fs fs2 : FileSystem) (path : String) (owner group : Nat)
    (hm : chown h fs path owner group = .ok fs2) :
    h.chown_errno = none ∧
    ∃ loc i, place fs path = .ok loc ∧ fs.inode loc = some i ∧
      fs2 = fs_update fs loc (set_owner i owner group) := by
  unfold chown at hm
  cases he : h.chown_errno with
  | some e => simp [he] at hm
  | none =>
    cases hp : place fs path with
    | error e => simp [he, hp] at hm
    | ok loc =>
      cases hf : fs.inode loc with
      | none => simp [he, hp, hf] at hm
      | some i =>
        simp only [he, hp, hf] at hm
        injection hm with hm
        exact ⟨rfl, loc, i, rfl, hf, hm.symm⟩

theorem chown_done (h : Host) (fs : FileSystem) (path : String) (owner group : Nat)
    (loc : Loc) (i : Inode) (he : h.chown_errno = none) (hp : place fs path = .ok loc)
    (hf : fs.inode loc = some i) :
    chown h fs path owner group = .ok (fs_update fs loc (set_owner i owner group)) := by
  simp [chown, he, hp, hf]

theorem setenv_cases (h : Host) (env : PamEnv) (name value : String) :
    ((pam_misc_setenv h env name value 1).1 = PAM_SUCCESS ∧ env name = none ∧
        h.putenv_fails = false ∧
        (pam_misc_setenv h env name value 1).2 = env_set env name value) ∨
    ((pam_misc_setenv h env name value 1).1 ≠ PAM_SUCCESS ∧
        (pam_misc_setenv h env name value 1).2 = env) := by
  unfold pam_misc_setenv
  cases he : env name <;> cases hp : h.putenv_fails <;>
    simp [PAM_SUCCESS, PAM_PERM_DENIED, PAM_BUF_ERR]

theorem setenv_done (h : Host) (env : PamEnv) (name value : String)
    (he : env name = none) (hp : h.putenv_fails = false) :
    pam_misc_setenv h env name value 1 = (PAM_SUCCESS, env_set env name value) := by
  simp [pam_misc_setenv, he, hp]

theorem asprintf_path (h : Host) (uid : Nat) :
    asprintf h (h.RUNTIME_DIR_PARENT ++ "") (intmax_of_uid uid)
      = if h.asprintf_fails then none
        else some (runtime_dir_path h.RUNTIME_DIR_PARENT uid) := rfl

/-! ## Lemmas on lines 76-87 -/

theorem chown_and_publish_rval (h : Host) (pw : Passwd) (path : String) (w : World)
    (tr : List Call) :
    (chown_and_publish h pw path w tr).rval = PAM_SUCCESS ∨
    (chown_and_publish h pw path w tr).rval = PAM_SESSION_ERR := by
  unfold chown_and_publish
  cases chown h w.fs path pw.pw_uid pw.pw_gid with
  | error e => exact Or.inr rfl
  | ok fs2 =>
    simp only []
    split
    · exact Or.inr rfl
    · exact Or.inl rfl

/-- The calls of lines 76-87: one `chown` of the path to the identity, then
possibly calls that are neither `chmod` nor `chown`. -/
theorem chown_and_publish_trace (h : Host) (pw : Passwd) (path : String) (w : World)
    (tr : List Call) :
    ∃ r rest, (chown_and_publish h pw path w tr).trace
        = tr ++ (Call.chown path pw.pw_uid pw.pw_gid r :: rest) ∧
      ∀ c ∈ rest, c.isChmod = false ∧ c.isChown = false := by
  unfold chown_and_publish
  cases chown h w.fs path pw.pw_uid pw.pw_gid with
  | error e =>
    exact ⟨some e, [], rfl, fun c hc => absurd hc (List.not_mem_nil c)⟩
  | ok fs2 =>
    refine ⟨none, [.pam_misc_setenv "XDG_RUNTIME_DIR" path 1
      (pam_misc_setenv h w.env "XDG_RUNTIME_DIR" path 1).1], ?_, ?_⟩
    · simp only []
      split <;> rfl
    · intro c hc
      simp only [List.mem_singleton] at hc
      rw [hc]
      exact ⟨rfl, rfl⟩

/-- A successful pass through lines 76-87. -/
theorem chown_and_publish_success (h : Host) (pw : Passwd) (path : String) (w : World)
    (tr : List Call) (hok : (chown_and_publish h pw path w tr).rval = PAM_SUCCESS) :
    h.chown_errno = none ∧ h.putenv_fails = false ∧ w.env "XDG_RUNTIME_DIR" = none ∧
    ∃ loc i, place w.fs path = .ok loc ∧ w.fs.inode loc = some i ∧
      chown_and_publish h pw path w tr
        = ⟨PAM_SUCCESS,
           ⟨fs_update w.fs loc (set_owner i pw.pw_uid pw.pw_gid),
            env_set w.env "XDG_RUNTIME_DIR" path⟩,
           tr ++ [.chown path pw.pw_uid pw.pw_gid none,
                  .pam_misc_setenv "XDG_RUNTIME_DIR" path 1 PAM_SUCCESS]⟩ := by
  unfold chown_and_publish at hok ⊢
  cases hc : chown h w.fs path pw.pw_uid pw.pw_gid with
  | error e =>
    simp [hc, PAM_SESSION_ERR, PAM_SUCCESS] at hok
  | ok fs2 =>
    obtain ⟨hco, loc, i, hp, hi, hfs2⟩ := chown_ok h w.fs fs2 path pw.pw_uid pw.pw_gid hc
    simp only [hc] at hok ⊢
    rcases setenv_cases h w.env "XDG_RUNTIME_DIR" path with ⟨h1, h2, h3, h4⟩ | ⟨h1, _⟩
    · refine ⟨hco, h3, h2, loc, i, hp, hi, ?_⟩
      simp only [h1, ne_eq, not_true_eq_false, if_false, h4, hfs2]
    · rw [if_pos h1] at hok
      exact absurd hok (by simp [PAM_SESSION_ERR, PAM_SUCCESS])

/-- A pass through lines 76-87 that meets no failure. -/
theorem chown_and_publish_done (h : Host) (pw : Passwd) (path : String) (w : World)
    (tr : List Call) (loc : Loc) (i : Inode)
    (hco : h.chown_errno = none) (hpe : h.putenv_fails = false)
    (hen : w.env "XDG_RUNTIME_DIR" = none)
    (hp : place w.fs path = .ok loc) (hi : w.fs.inode loc = some i) :
    chown_and_publish h pw path w tr
      = ⟨PAM_SUCCESS,
         ⟨fs_update w.fs loc (set_owner i pw.pw_uid pw.pw_gid),
          env_set w.env "XDG_RUNTIME_DIR" path⟩,
         tr ++ [.chown path pw.pw_uid pw.pw_gid none,
                .pam_misc_setenv "XDG_RUNTIME_DIR" path 1 PAM_SUCCESS]⟩ := by
  unfold chown_and_publish
  rw [chown_done h w.fs path pw.pw_uid pw.pw_gid loc i hco hp hi]
  simp only [setenv_done h w.env "XDG_RUNTIME_DIR" path hen hpe, ne_eq, not_true_eq_false,
    if_false]

/-- Frame of lines 76-87: the calls added are about `path`, no name changes,
only the file the path leads to changes and it keeps its kind, and no other
variable changes. -/
theorem chown_and_publish_frame (h : Host) (pw : Passwd) (path : String) (w : World)
    (tr : List Call) :
    (∀ c ∈ (chown_and_publish h pw path w tr).trace, c ∈ tr ∨ c.target = path) ∧
    (chown_and_publish h pw path w tr).world.fs.entry = w.fs.entry ∧
    (∀ loc, place w.fs path ≠ .ok loc →
        (chown_and_publish h pw path w tr).world.fs.inode loc = w.fs.inode loc) ∧
    (∀ loc i, w.fs.inode loc = some i →
        ∃ j, (chown_and_publish h pw path w tr).world.fs.inode loc = some j ∧
          j.kind = i.kind) ∧
    (∀ n, n ≠ "XDG_RUNTIME_DIR" → (chown_and_publish h pw path w tr).world.env n = w.env n) := by
  unfold chown_and_publish
  cases hc : chown h w.fs path pw.pw_uid pw.pw_gid with
  | error e =>
    refine ⟨?_, rfl, fun _ _ => rfl, fun loc i hi => ⟨i, hi, rfl⟩, fun _ _ => rfl⟩
    intro c hcm
    simp only [List.mem_append, List.mem_singleton] at hcm
    rcases hcm with hcm | hcm
    · exact Or.inl hcm
    · right; rw [hcm]; rfl
  | ok fs2 =>
    obtain ⟨_, loc0, i0, hp0, hi0, hfs2⟩ := chown_ok h w.fs fs2 path pw.pw_uid pw.pw_gid hc
    have hentry : fs2.entry = w.fs.entry := by rw [hfs2]; rfl
    have hinode : ∀ loc, place w.fs path ≠ .ok loc → fs2.inode loc = w.fs.inode loc := by
      intro loc hl
      rw [hfs2]
      apply fs_update_inode_other
      intro heq
      exact hl (by rw [heq]; exact hp0)
    have hkind : ∀ loc i, w.fs.inode loc = some i →
        ∃ j, fs2.inode loc = some j ∧ j.kind = i.kind := by
      intro loc i hi
      by_cases hl : loc = loc0
      · subst hl
        rw [hi0] at hi
        injection hi with hi
        subst hi
        exact ⟨set_owner i0 pw.pw_uid pw.pw_gid,
          by rw [hfs2]; exact fs_update_inode_same _ _ _, rfl⟩
      · exact ⟨i, by rw [hfs2, fs_update_inode_other _ _ _ _ hl]; exact hi, rfl⟩
    have henv : ∀ n, n ≠ "XDG_RUNTIME_DIR" →
        (pam_misc_setenv h w.env "XDG_RUNTIME_DIR" path 1).2 n = w.env n := by
      intro n hn
      rcases setenv_cases h w.env "XDG_RUNTIME_DIR" path with ⟨_, _, _, h2⟩ | ⟨_, h2⟩
      · rw [h2]; exact env_set_other _ _ _ _ hn
      · rw [h2]
    have htr : ∀ c ∈ tr ++ [Call.chown path pw.pw_uid pw.pw_gid none,
        Call.pam_misc_setenv "XDG_RUNTIME_DIR" path 1
          (pam_misc_setenv h w.env "XDG_RUNTIME_DIR" path 1).1], c ∈ tr ∨ c.target = path := by
      intro c hcm
      simp only [List.mem_append, List.mem_cons, List.mem_singleton, List.not_mem_nil,
        or_false] at hcm
      rcases hcm with hcm | hcm | hcm
      · exact Or.inl hcm
      · right; rw [hcm]; rfl
      · right; rw [hcm]; rfl
    simp only []
    split
    · exact ⟨htr, hentry, hinode, hkind, henv⟩
    · exact ⟨htr, hentry, hinode, hkind, henv⟩

/-! ## Lemmas on the whole function -/

/-- What a run does when the login name is not obtained. -/
theorem run_no_user (h : Host) (w : World) (hu : h.pam_get_user = none) :
    pam_sm_open_session h w = ⟨PAM_SESSION_ERR, w, []⟩ := by
  simp [pam_sm_open_session, hu]

/-- What a run does when the login name is not in the password database. -/
theorem run_unknown_user (h : Host) (w : World) (user : String)
    (hu : h.pam_get_user = some user) (hp : h.getpwnam user = none) :
    pam_sm_open_session h w = ⟨PAM_SESSION_ERR, w, []⟩ := by
  simp [pam_sm_open_session, hu, hp]

/-- The status is one of the two values the C function can return. -/
theorem rval_cases (h : Host) (w : World) :
    (pam_sm_open_session h w).rval = PAM_SUCCESS ∨
    (pam_sm_open_session h w).rval = PAM_SESSION_ERR := by
  unfold pam_sm_open_session
  simp only []
  split
  · exact Or.inr rfl
  · split
    · exact Or.inr rfl
    · split
      · exact Or.inr rfl
      · split
        · exact chown_and_publish_rval _ _ _ _ _
        · split
          · exact Or.inr rfl
          · split
            · exact Or.inr rfl
            · exact chown_and_publish_rval _ _ _ _ _

theorem fsPath_target (c : Call) (p : String) (hc : c.fsPath = some p) : c.target = p := by
  cases c <;> simp_all [Call.fsPath, Call.target]

/-- Inversion of a successful run: no injected failure was met, the variable
was unset, and the run either created the directory in an existing directory
or repaired the file that the path leads to. -/
theorem success_inv (h : Host) (w : World) (user : String) (pw : Passwd)
    (hu : h.pam_get_user = some user) (hp : h.getpwnam user = some pw)
    (hok : (pam_sm_open_session h w).rval = PAM_SUCCESS) :
    h.asprintf_fails = false ∧ h.chown_errno = none ∧ h.putenv_fails = false ∧
    w.env "XDG_RUNTIME_DIR" = none ∧
    ((∃ pd, h.mkdir_errno = none ∧
        w.fs.entry (runtime_dir_path h.RUNTIME_DIR_PARENT pw.pw_uid) = none ∧
        stat w.fs (dirname (runtime_dir_path h.RUNTIME_DIR_PARENT pw.pw_uid)) = .ok pd ∧
        pd.kind = .directory ∧
        pam_sm_open_session h w
          = created_outcome h w pw (runtime_dir_path h.RUNTIME_DIR_PARENT pw.pw_uid) pd) ∨
     (∃ loc i,
        mkdir h w.fs (runtime_dir_path h.RUNTIME_DIR_PARENT pw.pw_uid) 0o700
          = .error .EEXIST ∧
        h.chmod_errno = none ∧
        place w.fs (runtime_dir_path h.RUNTIME_DIR_PARENT pw.pw_uid) = .ok loc ∧
        w.fs.inode loc = some i ∧
        pam_sm_open_session h w
          = repaired_outcome w pw (runtime_dir_path h.RUNTIME_DIR_PARENT pw.pw_uid) loc i)) := by
  generalize hpath : runtime_dir_path h.RUNTIME_DIR_PARENT pw.pw_uid = path at *
  simp only [pam_sm_open_session, hu, hp, asprintf_path, hpath] at hok ⊢
  cases hf : h.asprintf_fails with
  | true => simp [hf, PAM_SESSION_ERR, PAM_SUCCESS] at hok
  | false =>
    simp only [hf, Bool.false_eq_true, if_false] at hok ⊢
    cases hm : mkdir h w.fs path 0o700 with
    | ok fs1 =>
      simp only [hm] at hok ⊢
      obtain ⟨hmk, hnone, pd, hpd, hkind, hfs1⟩ := mkdir_ok h w.fs fs1 path 0o700 hm
      obtain ⟨hco, hpe, hen, loc, i, hpl, hi, heq⟩ :=
        chown_and_publish_success h pw path ⟨fs1, w.env⟩ [.mkdir path 0o700 none] hok
      refine ⟨trivial, hco, hpe, hen, Or.inl ⟨pd, hmk, hnone, hpd, hkind, ?_⟩⟩
      rw [heq]
      have hpl2 : place fs1 path = .ok (.own path) := by
        rw [hfs1]; exact place_fs_create_self _ _ _
      have hloc : loc = .own path := by
        have : (Except.ok loc : Except Errno Loc) = .ok (.own path) := by
          rw [← hpl]; exact hpl2
        injection this
      subst hloc
      have hi2 : i = new_directory h pd 0o700 := by
        have h3 : fs1.inode (.own path) = some (new_directory h pd 0o700) := by
          rw [hfs1]; simp [fs_create]
        have h4 : (⟨fs1, w.env⟩ : World).fs.inode (.own path) = some i := hi
        rw [h3] at h4
        injection h4 with h4
        exact h4.symm
      subst hi2
      simp only [created_outcome, hfs1, List.cons_append, List.nil_append]
    | error e =>
      simp only [hm] at hok ⊢
      by_cases he : e = .EEXIST
      · subst he
        simp only [ne_eq, not_true_eq_false, if_false] at hok ⊢
        cases hc : chmod h w.fs path 0o700 with
        | error e2 => simp [hc, PAM_SESSION_ERR, PAM_SUCCESS] at hok
        | ok fs1 =>
          simp only [hc] at hok ⊢
          obtain ⟨hch, loc0, i0, hp0, hi0, hfs1⟩ := chmod_ok h w.fs fs1 path 0o700 hc
          obtain ⟨hco, hpe, hen, loc, i, hpl, hi, heq⟩ :=
            chown_and_publish_success h pw path ⟨fs1, w.env⟩
              [.mkdir path 0o700 (some .EEXIST), .chmod path 0o700 none] hok
          refine ⟨trivial, hco, hpe, hen, Or.inr ⟨loc0, i0, trivial, hch, hp0, hi0, ?_⟩⟩
          rw [heq]
          have hloc : loc = loc0 := by
            have hpl2 : place fs1 path = .ok loc0 := by rw [hfs1]; exact hp0
            have : (Except.ok loc : Except Errno Loc) = .ok loc0 := by
              rw [← hpl]; exact hpl2
            injection this
          subst hloc
          have hi2 : i = set_mode i0 0o700 := by
            have h3 : fs1.inode loc = some (set_mode i0 0o700) := by
              rw [hfs1]; exact fs_update_inode_same _ _ _
            have h4 : (⟨fs1, w.env⟩ : World).fs.inode loc = some i := hi
            rw [h3] at h4
            injection h4 with h4
            exact h4.symm
          subst hi2
          simp only [repaired_outcome, hfs1, fs_update_update, List.cons_append,
            List.nil_append]
      · simp [he, PAM_SESSION_ERR, PAM_SUCCESS] at hok

/-- A run that finds the name taken and meets no failure repairs the file the
path leads to. -/
theorem run_repaired (h : Host) (w : World) (user : String) (pw : Passwd) (loc : Loc)
    (i : Inode)
    (hu : h.pam_get_user = some user) (hp : h.getpwnam user = some pw)
    (hf : h.asprintf_fails = false)
    (hmk : mkdir h w.fs (runtime_dir_path h.RUNTIME_DIR_PARENT pw.pw_uid) 0o700
      = .error .EEXIST)
    (hch : h.chmod_errno = none) (hco : h.chown_errno = none)
    (hpe : h.putenv_fails = false)
    (hpl : place w.fs (runtime_dir_path h.RUNTIME_DIR_PARENT pw.pw_uid) = .ok loc)
    (hi : w.fs.inode loc = some i)
    (hen : w.env "XDG_RUNTIME_DIR" = none) :
    pam_sm_open_session h w
      = repaired_outcome w pw (runtime_dir_path h.RUNTIME_DIR_PARENT pw.pw_uid) loc i := by
  generalize hpath : runtime_dir_path h.RUNTIME_DIR_PARENT pw.pw_uid = path at *
  simp only [pam_sm_open_session, hu, hp, asprintf_path, hpath, hf, Bool.false_eq_true,
    if_false, hmk, ne_eq, not_true_eq_false, chmod_done h w.fs path 0o700 loc i hch hpl hi]
  rw [chown_and_publish_done h pw path ⟨fs_update w.fs loc (set_mode i 0o700), w.env⟩ _ loc
    (set_mode i 0o700) hco hpe hen hpl (fs_update_inode_same _ _ _)]
  simp only [repaired_outcome, fs_update_update, List.cons_append, List.nil_append]

theorem place_congr (fs fs2 : FileSystem) (he : fs2.entry = fs.entry) (p : String) :
    place fs2 p = place fs p := by
  unfold place
  rw [he]

/-- Frame of a change that touches no name and keeps the kind of every file:
every `stat` that succeeded still succeeds, on a file of the same kind. -/
theorem stat_kind_preserved (fs fs2 : FileSystem) (he : fs2.entry = fs.entry)
    (hk : ∀ loc i, fs.inode loc = some i → ∃ j, fs2.inode loc = some j ∧ j.kind = i.kind)
    (p : String) (i : Inode) (hs : stat fs p = .ok i) :
    ∃ j, stat fs2 p = .ok j ∧ j.kind = i.kind := by
  obtain ⟨loc, hpl, hi⟩ := (stat_ok fs p i).mp hs
  obtain ⟨j, hj, hjk⟩ := hk loc i hi
  exact ⟨j, (stat_ok fs2 p j).mpr ⟨loc, by rw [place_congr fs fs2 he]; exact hpl, hj⟩, hjk⟩

/-- The function after the two lookups, as lines 54-87 read. -/
theorem run_resolved (h : Host) (w : World) (user : String) (pw : Passwd)
    (hu : h.pam_get_user = some user) (hp : h.getpwnam user = some pw) :
    pam_sm_open_session h w =
      if h.asprintf_fails = true then ⟨PAM_SESSION_ERR, w, []⟩
      else
        match mkdir h w.fs (runtime_dir_path h.RUNTIME_DIR_PARENT pw.pw_uid) 0o700 with
        | .ok fs1 =>
          chown_and_publish h pw (runtime_dir_path h.RUNTIME_DIR_PARENT pw.pw_uid)
            ⟨fs1, w.env⟩
            [.mkdir (runtime_dir_path h.RUNTIME_DIR_PARENT pw.pw_uid) 0o700 none]
        | .error e =>
          if e ≠ .EEXIST then
            ⟨PAM_SESSION_ERR, w,
              [.mkdir (runtime_dir_path h.RUNTIME_DIR_PARENT pw.pw_uid) 0o700 (some e)]⟩
          else
            match chmod h w.fs (runtime_dir_path h.RUNTIME_DIR_PARENT pw.pw_uid) 0o700 with
            | .error e2 =>
              ⟨PAM_SESSION_ERR, w,
                [.mkdir (runtime_dir_path h.RUNTIME_DIR_PARENT pw.pw_uid) 0o700 (some e),
                 .chmod (runtime_dir_path h.RUNTIME_DIR_PARENT pw.pw_uid) 0o700 (some e2)]⟩
            | .ok fs1 =>
              chown_and_publish h pw (runtime_dir_path h.RUNTIME_DIR_PARENT pw.pw_uid)
                ⟨fs1, w.env⟩
                [.mkdir (runtime_dir_path h.RUNTIME_DIR_PARENT pw.pw_uid) 0o700 (some e),
                 .chmod (runtime_dir_path h.RUNTIME_DIR_PARENT pw.pw_uid) 0o700 none] := by
  simp only [pam_sm_open_session, hu, hp, asprintf_path]
  cases h.asprintf_fails <;> rfl

/-- Frame of a run for a resolved user.  Every call is about the computed
path; no name other than the path changes and a name that exists stays what it
is; the only file that can change is the one the path leads to (or the new
directory under the path); every `stat` that succeeded still succeeds on a file
of the same kind; every path leads where it led; no other variable changes. -/
theorem run_frame (h : Host) (w : World) (user : String) (pw : Passwd)
    (hu : h.pam_get_user = some user) (hp : h.getpwnam user = some pw) :
    (∀ c ∈ (pam_sm_open_session h w).trace,
        c.target = runtime_dir_path h.RUNTIME_DIR_PARENT pw.pw_uid) ∧
    (∀ p, p ≠ runtime_dir_path h.RUNTIME_DIR_PARENT pw.pw_uid →
        (pam_sm_open_session h w).world.fs.entry p = w.fs.entry p) ∧
    (∀ e, w.fs.entry (runtime_dir_path h.RUNTIME_DIR_PARENT pw.pw_uid) = some e →
        (pam_sm_open_session h w).world.fs.entry
          (runtime_dir_path h.RUNTIME_DIR_PARENT pw.pw_uid) = some e) ∧
    (∀ loc, loc ≠ .own (runtime_dir_path h.RUNTIME_DIR_PARENT pw.pw_uid) →
        place w.fs (runtime_dir_path h.RUNTIME_DIR_PARENT pw.pw_uid) ≠ .ok loc →
        (pam_sm_open_session h w).world.fs.inode loc = w.fs.inode loc) ∧
    (∀ p i, stat w.fs p = .ok i →
        ∃ j, stat (pam_sm_open_session h w).world.fs p = .ok j ∧ j.kind = i.kind) ∧
    (∀ p loc, place w.fs p = .ok loc →
        place (pam_sm_open_session h w).world.fs p = .ok loc) ∧
    (∀ n, n ≠ "XDG_RUNTIME_DIR" → (pam_sm_open_session h w).world.env n = w.env n) := by
  generalize hpath : runtime_dir_path h.RUNTIME_DIR_PARENT pw.pw_uid = path
  have hsame : ∀ (rv : Int) (tr : List Call), (∀ c ∈ tr, c.target = path) →
      (∀ c ∈ (⟨rv, w, tr⟩ : Outcome).trace, c.target = path) ∧
      (∀ p, p ≠ path → (⟨rv, w, tr⟩ : Outcome).world.fs.entry p = w.fs.entry p) ∧
      (∀ e, w.fs.entry path = some e →
        (⟨rv, w, tr⟩ : Outcome).world.fs.entry path = some e) ∧
      (∀ loc, loc ≠ .own path → place w.fs path ≠ .ok loc →
        (⟨rv, w, tr⟩ : Outcome).world.fs.inode loc = w.fs.inode loc) ∧
      (∀ p i, stat w.fs p = .ok i →
        ∃ j, stat (⟨rv, w, tr⟩ : Outcome).world.fs p = .ok j ∧ j.kind = i.kind) ∧
      (∀ p loc, place w.fs p = .ok loc →
        place (⟨rv, w, tr⟩ : Outcome).world.fs p = .ok loc) ∧
      (∀ n, n ≠ "XDG_RUNTIME_DIR" → (⟨rv, w, tr⟩ : Outcome).world.env n = w.env n) :=
    fun rv tr htr => ⟨htr, fun _ _ => rfl, fun _ he => he, fun _ _ _ => rfl,
      fun p i hs => ⟨i, hs, rfl⟩, fun _ _ hl => hl, fun _ _ => rfl⟩
  rw [run_resolved h w user pw hu hp, hpath]
  cases hf : h.asprintf_fails with
  | true =>
    rw [if_pos rfl]
    exact hsame _ [] (fun c hc => absurd hc (List.not_mem_nil c))
  | false =>
    rw [if_neg (by simp)]
    cases hm : mkdir h w.fs path 0o700 with
    | ok fs1 =>
      dsimp only
      obtain ⟨_, hnone, pd, _, _, hfs1⟩ := mkdir_ok h w.fs fs1 path 0o700 hm
      obtain ⟨f1, f2, f3, f4, f5⟩ :=
        chown_and_publish_frame h pw path ⟨fs1, w.env⟩ [.mkdir path 0o700 none]
      have hpl1 : place fs1 path = .ok (.own path) := by
        rw [hfs1]; exact place_fs_create_self _ _ _
      have hent : ∀ p, p ≠ path → fs1.entry p = w.fs.entry p := by
        intro p hpne; rw [hfs1]; simp [fs_create, hpne]
      have hino : ∀ loc, loc ≠ .own path → fs1.inode loc = w.fs.inode loc := by
        intro loc hl; rw [hfs1]; simp [fs_create, hl]
      have hplace : ∀ p loc, place w.fs p = .ok loc →
          place fs1 p = .ok loc ∧ loc ≠ .own path := by
        intro p loc hl; rw [hfs1]; exact place_fs_create w.fs path _ hnone p loc hl
      refine ⟨?_, ?_, ?_, ?_, ?_, ?_, f5⟩
      · intro c hc
        rcases f1 c hc with hc1 | hc1
        · simp only [List.mem_singleton] at hc1
          rw [hc1]; rfl
        · exact hc1
      · intro p hpne
        rw [f2]; exact hent p hpne
      · intro e he
        rw [hnone] at he
        exact absurd he (by simp)
      · intro loc hl _
        have hne : place fs1 path ≠ .ok loc := by
          rw [hpl1]
          intro hc
          injection hc with hc
          exact hl hc.symm
        rw [f3 loc hne]
        exact hino loc hl
      · intro p i hs
        obtain ⟨loc, hpl, hi⟩ := (stat_ok w.fs p i).mp hs
        obtain ⟨hpl2, hne⟩ := hplace p loc hpl
        have hi1 : fs1.inode loc = some i := by rw [hino loc hne]; exact hi
        obtain ⟨j, hj, hjk⟩ := f4 loc i hi1
        exact ⟨j, (stat_ok _ p j).mpr ⟨loc, by rw [place_congr fs1 _ f2]; exact hpl2, hj⟩, hjk⟩
      · intro p loc hl
        rw [place_congr fs1 _ f2]
        exact (hplace p loc hl).1
    | error e =>
      dsimp only
      by_cases he : e = .EEXIST
      · subst he
        rw [if_neg (by simp)]
        cases hc : chmod h w.fs path 0o700 with
        | error e2 =>
          dsimp only
          refine hsame PAM_SESSION_ERR
            [.mkdir path 0o700 (some .EEXIST), .chmod path 0o700 (some e2)] ?_
          intro c hcm
          simp only [List.mem_cons, List.mem_singleton, List.not_mem_nil, or_false] at hcm
          rcases hcm with hcm | hcm <;> (rw [hcm]; rfl)
        | ok fs1 =>
          dsimp only
          obtain ⟨_, loc0, i0, hp0, hi0, hfs1⟩ := chmod_ok h w.fs fs1 path 0o700 hc
          obtain ⟨f1, f2, f3, f4, f5⟩ :=
            chown_and_publish_frame h pw path ⟨fs1, w.env⟩
              [.mkdir path 0o700 (some .EEXIST), .chmod path 0o700 none]
          have hent : fs1.entry = w.fs.entry := by rw [hfs1]; rfl
          have hent2 : (chown_and_publish h pw path ⟨fs1, w.env⟩
              [.mkdir path 0o700 (some .EEXIST), .chmod path 0o700 none]).world.fs.entry
              = w.fs.entry := by rw [f2]; exact hent
          have hpl1 : place fs1 path = .ok loc0 := by
            rw [place_congr w.fs fs1 hent]; exact hp0
          have hkind1 : ∀ loc i, w.fs.inode loc = some i →
              ∃ j, fs1.inode loc = some j ∧ j.kind = i.kind := by
            intro loc i hi
            by_cases hl : loc = loc0
            · subst hl
              rw [hi0] at hi
              injection hi with hi
              subst hi
              exact ⟨set_mode i0 0o700, by rw [hfs1]; exact fs_update_inode_same _ _ _, rfl⟩
            · exact ⟨i, by rw [hfs1, fs_update_inode_other _ _ _ _ hl]; exact hi, rfl⟩
          have hkind2 : ∀ loc i, w.fs.inode loc = some i →
              ∃ j, (chown_and_publish h pw path ⟨fs1, w.env⟩
                [.mkdir path 0o700 (some .EEXIST), .chmod path 0o700 none]).world.fs.inode loc
                  = some j ∧ j.kind = i.kind := by
            intro loc i hi
            obtain ⟨j1, hj1, hk1⟩ := hkind1 loc i hi
            obtain ⟨j, hj, hk⟩ := f4 loc j1 hj1
            exact ⟨j, hj, by rw [hk, hk1]⟩
          refine ⟨?_, ?_, ?_, ?_, ?_, ?_, f5⟩
          · intro c hcm
            rcases f1 c hcm with hc1 | hc1
            · simp only [List.mem_cons, List.mem_singleton, List.not_mem_nil, or_false] at hc1
              rcases hc1 with hc1 | hc1 <;> (rw [hc1]; rfl)
            · exact hc1
          · intro p _
            rw [hent2]
          · intro e hee
            rw [hent2]; exact hee
          · intro loc _ hl
            have hl0 : loc ≠ loc0 := by
              intro heq; exact hl (by rw [heq]; exact hp0)
            have hne : place fs1 path ≠ .ok loc := by
              rw [hpl1]
              intro hcc
              injection hcc with hcc
              exact hl0 hcc.symm
            rw [f3 loc hne, hfs1]
            exact fs_update_inode_other _ _ _ _ hl0
          · intro p i hs
            exact stat_kind_preserved w.fs _ hent2 hkind2 p i hs
          · intro p loc hl
            rw [place_congr w.fs _ hent2]
            exact hl
      · rw [if_pos he]
        refine hsame PAM_SESSION_ERR [.mkdir path 0o700 (some e)] ?_
        intro c hcm
        simp only [List.mem_singleton] at hcm
        rw [hcm]; rfl

/-- A path that led to a file other than the one the computed path leads to
still leads to it, and the file is as it was. -/
theorem run_frame_stat (h : Host) (w : World) (user : String) (pw : Passwd)
    (hu : h.pam_get_user = some user) (hp : h.getpwnam user = some pw)
    (p : String) (loc : Loc) (hpl : place w.fs p = .ok loc)
    (hdiff : place w.fs (runtime_dir_path h.RUNTIME_DIR_PARENT pw.pw_uid) ≠ .ok loc) :
    stat (pam_sm_open_session h w).world.fs p = stat w.fs p := by
  obtain ⟨_, _, _, f4, _, f6, _⟩ := run_frame h w user pw hu hp
  have hl : loc ≠ .own (runtime_dir_path h.RUNTIME_DIR_PARENT pw.pw_uid) := by
    intro hc
    subst hc
    have hfile := locate_own w.fs.entry _ _ _ hpl
    exact hdiff (place_plain w.fs _ hfile)
  rw [stat_of_place _ _ loc (f6 _ loc hpl), stat_of_place _ _ loc hpl, f4 loc hl hdiff]

/-! ## Theorems -/

/-- C3.  When the login name is not in the password database (`getpwnam`
returns NULL), `pam_sm_open_session` returns PAM_SESSION_ERR, the file system
and the PAM environment are exactly as before, and no `mkdir`, `chmod`, `chown`
or `pam_misc_setenv` call is issued. -/
theorem unknown_user_fails_without_effect (h : Host) (w : World) (user : String)
    (hu : h.pam_get_user = some user) (hp : h.getpwnam user = none) :
    (pam_sm_open_session h w).rval = PAM_SESSION_ERR ∧
    (pam_sm_open_session h w).world = w ∧
    (pam_sm_open_session h w).trace = [] := by
  rw [run_unknown_user h w user hu hp]
  exact ⟨rfl, rfl, rfl⟩

/-- Witness of C3: the login name nonexistent-user on the host of alice. -/
theorem unknown_user_fails_without_effect_witness :
    strangerHost.pam_get_user = some "nonexistent-user" ∧
    strangerHost.getpwnam "nonexistent-user" = none ∧
    (pam_sm_open_session strangerHost freshWorld).rval = PAM_SESSION_ERR ∧
    (pam_sm_open_session strangerHost freshWorld).world = freshWorld ∧
    (pam_sm_open_session strangerHost freshWorld).trace = [] :=
  ⟨rfl, by decide,
    unknown_user_fails_without_effect strangerHost freshWorld "nonexistent-user" rfl
      (by decide)⟩

/-- C4.  For every parent string and every uid of the `uid_t` range
0 .. 2^32-1, the path the function uses (the target of every call it issues) is
the parent, a slash, and the canonical decimal representation of the uid: digits
only, no sign, no leading zero, value uid.  The login name and the gid play no
part.  Parent /run/user and uid 1000 give /run/user/1000. -/
theorem path_is_parent_slash_decimal_uid (h : Host) (w : World) (user : String) (pw : Passwd)
    (hu : h.pam_get_user = some user) (hp : h.getpwnam user = some pw)
    (hlt : pw.pw_uid < 2 ^ UID_BITS) :
    runtime_dir_path h.RUNTIME_DIR_PARENT pw.pw_uid
      = h.RUNTIME_DIR_PARENT ++ "/" ++ Nat.repr pw.pw_uid ∧
    IsCanonicalDecimal (Nat.repr pw.pw_uid) pw.pw_uid ∧
    (∀ c ∈ (pam_sm_open_session h w).trace,
      c.target = h.RUNTIME_DIR_PARENT ++ "/" ++ Nat.repr pw.pw_uid) ∧
    runtime_dir_path "/run/user" 1000 = "/run/user/1000" := by
  have hpath := runtime_dir_path_eq h.RUNTIME_DIR_PARENT pw.pw_uid hlt
  refine ⟨hpath, repr_canonical _, ?_, by decide⟩
  intro c hc
  rw [← hpath]
  exact (run_frame h w user pw hu hp).1 c hc

/-- Witness of C4: alice, uid 1000, under /run/user. -/
theorem path_is_parent_slash_decimal_uid_witness :
    runtime_dir_path aliceHost.RUNTIME_DIR_PARENT 1000
      = aliceHost.RUNTIME_DIR_PARENT ++ "/" ++ Nat.repr 1000 ∧
    (pam_sm_open_session aliceHost freshWorld).trace ≠ [] :=
  ⟨(path_is_parent_slash_decimal_uid aliceHost freshWorld "alice" ⟨1000, 1000⟩ rfl
      (by decide) (by decide)).1, by decide⟩

/-- C5.  `pam_sm_open_session` returns PAM_SUCCESS if and only if the login
name is obtained, the user lookup succeeds, the path is formatted, `mkdir`
succeeds or fails with EEXIST and `chmod` then succeeds, `chown` succeeds and
the publication succeeds; in every other case it returns PAM_SESSION_ERR.  In a
successful run the only call that reported a failure is `mkdir` with EEXIST. -/
theorem success_iff_every_step_succeeds (h : Host) (w : World) :
    ((pam_sm_open_session h w).rval = PAM_SUCCESS ↔
      ∃ user pw path fs1 fs2,
        h.pam_get_user = some user ∧ h.getpwnam user = some pw ∧
        asprintf h (h.RUNTIME_DIR_PARENT ++ "") (intmax_of_uid pw.pw_uid) = some path ∧
        (mkdir h w.fs path 0o700 = .ok fs1 ∨
          (mkdir h w.fs path 0o700 = .error .EEXIST ∧ chmod h w.fs path 0o700 = .ok fs1)) ∧
        chown h fs1 path pw.pw_uid pw.pw_gid = .ok fs2 ∧
        (pam_misc_setenv h w.env "XDG_RUNTIME_DIR" path 1).1 = PAM_SUCCESS) ∧
    ((pam_sm_open_session h w).rval ≠ PAM_SUCCESS →
      (pam_sm_open_session h w).rval = PAM_SESSION_ERR) ∧
    ((pam_sm_open_session h w).rval = PAM_SUCCESS →
      ∀ c ∈ (pam_sm_open_session h w).trace, c.failed = true →
        ∃ path, c = .mkdir path 0o700 (some .EEXIST)) := by
  have hres : (pam_sm_open_session h w).rval = PAM_SUCCESS →
      ∃ user pw, h.pam_get_user = some user ∧ h.getpwnam user = some pw := by
    intro hok
    cases hu : h.pam_get_user with
    | none =>
      rw [run_no_user h w hu] at hok
      exact absurd hok (by simp [PAM_SESSION_ERR, PAM_SUCCESS])
    | some user =>
      cases hp : h.getpwnam user with
      | none =>
        rw [run_unknown_user h w user hu hp] at hok
        exact absurd hok (by simp [PAM_SESSION_ERR, PAM_SUCCESS])
      | some pw => exact ⟨user, pw, rfl, hp⟩
  refine ⟨⟨?_, ?_⟩, fun hne => (rval_cases h w).resolve_left hne, ?_⟩
  · intro hok
    obtain ⟨user, pw, hu, hp⟩ := hres hok
    obtain ⟨hf, hco, hpe, henv, hcase⟩ := success_inv h w user pw hu hp hok
    have hset : ∀ path, (pam_misc_setenv h w.env "XDG_RUNTIME_DIR" path 1).1 = PAM_SUCCESS := by
      intro path
      simp [pam_misc_setenv, henv, hpe]
    have hasp : asprintf h (h.RUNTIME_DIR_PARENT ++ "") (intmax_of_uid pw.pw_uid)
        = some (runtime_dir_path h.RUNTIME_DIR_PARENT pw.pw_uid) := by
      rw [asprintf_path, hf]; rfl
    rcases hcase with ⟨pd, hmk, hnone, hpd, hkind, _⟩ | ⟨loc, i, hmk, hch, hpl, hi, _⟩
    · refine ⟨user, pw, runtime_dir_path h.RUNTIME_DIR_PARENT pw.pw_uid,
        fs_create w.fs (runtime_dir_path h.RUNTIME_DIR_PARENT pw.pw_uid)
          (new_directory h pd 0o700),
        fs_update (fs_create w.fs (runtime_dir_path h.RUNTIME_DIR_PARENT pw.pw_uid)
            (new_directory h pd 0o700))
          (.own (runtime_dir_path h.RUNTIME_DIR_PARENT pw.pw_uid))
          (set_owner (new_directory h pd 0o700) pw.pw_uid pw.pw_gid),
        hu, hp, hasp, Or.inl ?_, ?_, hset _⟩
      · exact mkdir_created h w.fs _ 0o700 pd hmk hpd hkind hnone
      · exact chown_done h _ _ _ _ _ _ hco (place_fs_create_self _ _ _)
          (by simp [fs_create])
    · refine ⟨user, pw, runtime_dir_path h.RUNTIME_DIR_PARENT pw.pw_uid,
        fs_update w.fs loc (set_mode i 0o700),
        fs_update (fs_update w.fs loc (set_mode i 0o700)) loc
          (set_owner (set_mode i 0o700) pw.pw_uid pw.pw_gid),
        hu, hp, hasp, Or.inr ⟨hmk, ?_⟩, ?_, hset _⟩
      · exact chmod_done h w.fs _ 0o700 loc i hch hpl hi
      · exact chown_done h _ _ _ _ loc _ hco
          (by rw [place_fs_update]; exact hpl) (fs_update_inode_same _ _ _)
  · rintro ⟨user, pw, path, fs1, fs2, hu, hp, ha, hm, hc, hs⟩
    simp only [pam_sm_open_session, hu, hp, ha]
    rcases hm with hm | ⟨hm, hcm⟩
    · simp [hm, chown_and_publish, hc, hs]
    · simp [hm, hcm, chown_and_publish, hc, hs]
  · intro hok c hc hfail
    obtain ⟨user, pw, hu, hp⟩ := hres hok
    obtain ⟨_, _, _, _, hcase⟩ := success_inv h w user pw hu hp hok
    rcases hcase with ⟨pd, _, _, _, _, heq⟩ | ⟨loc, i, _, _, _, _, heq⟩
    · rw [heq] at hc
      simp only [created_outcome, List.mem_cons, List.mem_singleton, List.not_mem_nil,
        or_false] at hc
      rcases hc with hc | hc | hc <;> (rw [hc] at hfail; simp [Call.failed] at hfail)
    · rw [heq] at hc
      simp only [repaired_outcome, List.mem_cons, List.mem_singleton, List.not_mem_nil,
        or_false] at hc
      rcases hc with hc | hc | hc | hc
      · exact ⟨_, hc⟩
      all_goals (rw [hc] at hfail; simp [Call.failed] at hfail)

/-- Witness of C5: the first login of alice succeeds, so every step of it
succeeded. -/
theorem success_iff_every_step_succeeds_witness :
    (pam_sm_open_session aliceHost freshWorld).rval = PAM_SUCCESS ∧
    ∃ user pw path fs1 fs2,
      aliceHost.pam_get_user = some user ∧ aliceHost.getpwnam user = some pw ∧
      asprintf aliceHost (aliceHost.RUNTIME_DIR_PARENT ++ "") (intmax_of_uid pw.pw_uid)
        = some path ∧
      (mkdir aliceHost freshWorld.fs path 0o700 = .ok fs1 ∨
        (mkdir aliceHost freshWorld.fs path 0o700 = .error .EEXIST ∧
          chmod aliceHost freshWorld.fs path 0o700 = .ok fs1)) ∧
      chown aliceHost fs1 path pw.pw_uid pw.pw_gid = .ok fs2 ∧
      (pam_misc_setenv aliceHost freshWorld.env "XDG_RUNTIME_DIR" path 1).1 = PAM_SUCCESS :=
  ⟨by decide, (success_iff_every_step_succeeds aliceHost freshWorld).1.mp (by decide)⟩

/-- C1 (as amended).  Let the login name resolve to an identity whose uid and
gid both differ from the reserved value (uid_t)-1; let the target path be
absent or lead to a directory (of any mode and owner); and, when it is absent,
let the directory it is created in and the umask keep the requested mode
(`KeepsRequestedMode`: no set-group-ID bit to inherit, owner bits cleared
neither by the umask nor by a default access control list).  If
`pam_sm_open_session` returns PAM_SUCCESS, the target path leads to a
directory of mode exactly 0700 owned by exactly (uid, gid). -/
theorem success_gives_private_directory (h : Host) (w : World) (user : String) (pw : Passwd)
    (hu : h.pam_get_user = some user) (hp : h.getpwnam user = some pw)
    (huid : pw.pw_uid ≠ ID_UNCHANGED) (hgid : pw.pw_gid ≠ ID_UNCHANGED)
    (hprior : w.fs.entry (runtime_dir_path h.RUNTIME_DIR_PARENT pw.pw_uid) = none ∨
      ∃ d, stat w.fs (runtime_dir_path h.RUNTIME_DIR_PARENT pw.pw_uid) = .ok d ∧
        d.kind = .directory)
    (hfresh : w.fs.entry (runtime_dir_path h.RUNTIME_DIR_PARENT pw.pw_uid) = none →
      ∀ pd, stat w.fs (dirname (runtime_dir_path h.RUNTIME_DIR_PARENT pw.pw_uid)) = .ok pd →
        KeepsRequestedMode h pd)
    (hok : (pam_sm_open_session h w).rval = PAM_SUCCESS) :
    ∃ i, stat (pam_sm_open_session h w).world.fs
        (runtime_dir_path h.RUNTIME_DIR_PARENT pw.pw_uid) = .ok i ∧
      i.kind = .directory ∧ i.mode = 0o700 ∧ i.uid = pw.pw_uid ∧ i.gid = pw.pw_gid := by
  obtain ⟨_, _, _, _, hcase⟩ := success_inv h w user pw hu hp hok
  rcases hcase with ⟨pd, _, hnone, hpd, _, heq⟩ | ⟨loc, i0, _, _, hpl, hi0, heq⟩
  · rw [heq]
    refine ⟨set_owner (new_directory h pd 0o700) pw.pw_uid pw.pw_gid, ?_, rfl, ?_, ?_, ?_⟩
    · apply (stat_ok _ _ _).mpr
      refine ⟨.own (runtime_dir_path h.RUNTIME_DIR_PARENT pw.pw_uid), ?_, ?_⟩
      · simp only [created_outcome, place_fs_update]
        exact place_fs_create_self _ _ _
      · simp only [created_outcome]
        exact fs_update_inode_same _ _ _
    · exact created_mode_keeps h pd (hfresh hnone pd hpd)
    · simp only [set_owner, if_neg huid]
    · simp only [set_owner, if_neg hgid]
  · rw [heq]
    have hdir : i0.kind = .directory := by
      rcases hprior with hnone | ⟨d, hd, hk⟩
      · rw [place_absent w.fs _ hnone] at hpl
        exact absurd hpl (by simp)
      · rw [stat_of_place w.fs _ loc hpl, hi0] at hd
        injection hd with hd
        rw [hd]; exact hk
    refine ⟨set_owner (set_mode i0 0o700) pw.pw_uid pw.pw_gid, ?_, hdir, ?_, ?_, ?_⟩
    · apply (stat_ok _ _ _).mpr
      refine ⟨loc, ?_, ?_⟩
      · simp only [repaired_outcome, place_fs_update]
        exact hpl
      · simp only [repaired_outcome]
        exact fs_update_inode_same _ _ _
    · show 0o700 &&& 0o7777 = 0o700
      decide
    · simp only [set_owner, if_neg huid]
    · simp only [set_owner, if_neg hgid]

/-- Witness of C1: the first login of alice (uid 1000, gid 1000, umask 022,
no directory yet, parent of mode 0755 without access control list). -/
theorem success_gives_private_directory_witness :
    freshWorld.fs.entry (runtime_dir_path aliceHost.RUNTIME_DIR_PARENT 1000) = none ∧
    (pam_sm_open_session aliceHost freshWorld).rval = PAM_SUCCESS ∧
    ∃ i, stat (pam_sm_open_session aliceHost freshWorld).world.fs
        (runtime_dir_path aliceHost.RUNTIME_DIR_PARENT 1000) = .ok i ∧
      i.kind = .directory ∧ i.mode = 0o700 ∧ i.uid = 1000 ∧ i.gid = 1000 :=
  ⟨by decide, by decide,
   success_gives_private_directory aliceHost freshWorld "alice" ⟨1000, 1000⟩ rfl (by decide)
    (by decide) (by decide) (Or.inl (by decide))
    (fun _ pd hpd => by
      have h0 : stat freshWorld.fs (dirname (runtime_dir_path aliceHost.RUNTIME_DIR_PARENT 1000))
          = .ok ⟨.directory, 0o755, 0, 0, none⟩ := by decide
      have h1 : (Except.ok pd : Except Errno Inode) = .ok ⟨.directory, 0o755, 0, 0, none⟩ :=
        hpd.symm.trans h0
      injection h1 with h1
      subst h1
      exact ⟨by decide, by decide⟩)
    (by decide)⟩

/-- Counterexample to C1 as stated.  Each of these first logins of alice
starts with no entry at her path and returns PAM_SUCCESS.  With umask 0277 the
directory is left with mode 0500.  With the identity (4294967295, 1000) it is
left owned by uid 0, and with (1000, 4294967295) in group 0, because `chown`
reads the id 4294967295 as "do not change".  Under a parent with the
set-group-ID bit it is left with mode 02700, and under a parent whose default
access control list grants the owner r-x it is left with mode 0500. -/
theorem success_gives_private_directory_counterexample :
    (freshWorld.fs.entry (runtime_dir_path maskedHost.RUNTIME_DIR_PARENT 1000) = none ∧
     (pam_sm_open_session maskedHost freshWorld).rval = PAM_SUCCESS ∧
     stat (pam_sm_open_session maskedHost freshWorld).world.fs
        (runtime_dir_path maskedHost.RUNTIME_DIR_PARENT 1000)
       = .ok ⟨.directory, 0o500, 1000, 1000, none⟩) ∧
    (reservedUidHost.getpwnam "alice" = some ⟨4294967295, 1000⟩ ∧
     freshWorld.fs.entry (runtime_dir_path reservedUidHost.RUNTIME_DIR_PARENT 4294967295)
       = none ∧
     (pam_sm_open_session reservedUidHost freshWorld).rval = PAM_SUCCESS ∧
     stat (pam_sm_open_session reservedUidHost freshWorld).world.fs
        (runtime_dir_path reservedUidHost.RUNTIME_DIR_PARENT 4294967295)
       = .ok ⟨.directory, 0o700, 0, 1000, none⟩) ∧
    (reservedGidHost.getpwnam "alice" = some ⟨1000, 4294967295⟩ ∧
     (pam_sm_open_session reservedGidHost freshWorld).rval = PAM_SUCCESS ∧
     stat (pam_sm_open_session reservedGidHost freshWorld).world.fs
        (runtime_dir_path reservedGidHost.RUNTIME_DIR_PARENT 1000)
       = .ok ⟨.directory, 0o700, 1000, 0, none⟩) ∧
    (stat setgidWorld.fs (dirname (runtime_dir_path aliceHost.RUNTIME_DIR_PARENT 1000))
       = .ok ⟨.directory, 0o2755, 0, 0, none⟩ ∧
     setgidWorld.fs.entry (runtime_dir_path aliceHost.RUNTIME_DIR_PARENT 1000) = none ∧
     (pam_sm_open_session aliceHost setgidWorld).rval = PAM_SUCCESS ∧
     stat (pam_sm_open_session aliceHost setgidWorld).world.fs
        (runtime_dir_path aliceHost.RUNTIME_DIR_PARENT 1000)
       = .ok ⟨.directory, 0o2700, 1000, 1000, none⟩) ∧
    (stat aclWorld.fs (dirname (runtime_dir_path aliceHost.RUNTIME_DIR_PARENT 1000))
       = .ok ⟨.directory, 0o755, 0, 0, some 0o500⟩ ∧
     aclWorld.fs.entry (runtime_dir_path aliceHost.RUNTIME_DIR_PARENT 1000) = none ∧
     (pam_sm_open_session aliceHost aclWorld).rval = PAM_SUCCESS ∧
     stat (pam_sm_open_session aliceHost aclWorld).world.fs
        (runtime_dir_path aliceHost.RUNTIME_DIR_PARENT 1000)
       = .ok ⟨.directory, 0o500, 1000, 1000, some 0o500⟩) := by
  decide

/-- C2 (as amended).  Let a first invocation succeed; when it created the
directory, let the directory it was created in and the umask keep the requested
mode (`KeepsRequestedMode`); and let `chmod` not be refused to the caller.  A
second invocation on the file system the first one left, in a session whose
PAM environment does not hold XDG_RUNTIME_DIR yet (a new login), returns
PAM_SUCCESS, leaves the file system exactly as it was after the first
invocation, publishes the same XDG_RUNTIME_DIR value, and goes through the
branch in which `mkdir` fails with EEXIST. -/
theorem second_login_keeps_state (h : Host) (w : World) (user : String) (pw : Passwd)
    (hu : h.pam_get_user = some user) (hp : h.getpwnam user = some pw)
    (hok : (pam_sm_open_session h w).rval = PAM_SUCCESS)
    (hfresh : w.fs.entry (runtime_dir_path h.RUNTIME_DIR_PARENT pw.pw_uid) = none →
      ∀ pd, stat w.fs (dirname (runtime_dir_path h.RUNTIME_DIR_PARENT pw.pw_uid)) = .ok pd →
        KeepsRequestedMode h pd)
    (hchmod : h.chmod_errno = none)
    (env2 : PamEnv) (henv2 : env2 "XDG_RUNTIME_DIR" = none) :
    (pam_sm_open_session h ⟨(pam_sm_open_session h w).world.fs, env2⟩).rval = PAM_SUCCESS ∧
    (pam_sm_open_session h ⟨(pam_sm_open_session h w).world.fs, env2⟩).world.fs
      = (pam_sm_open_session h w).world.fs ∧
    (pam_sm_open_session h ⟨(pam_sm_open_session h w).world.fs, env2⟩).world.env
        "XDG_RUNTIME_DIR"
      = (pam_sm_open_session h w).world.env "XDG_RUNTIME_DIR" ∧
    (pam_sm_open_session h w).world.env "XDG_RUNTIME_DIR"
      = some (runtime_dir_path h.RUNTIME_DIR_PARENT pw.pw_uid) ∧
    (pam_sm_open_session h ⟨(pam_sm_open_session h w).world.fs, env2⟩).trace
      = [.mkdir (runtime_dir_path h.RUNTIME_DIR_PARENT pw.pw_uid) 0o700 (some .EEXIST),
         .chmod (runtime_dir_path h.RUNTIME_DIR_PARENT pw.pw_uid) 0o700 none,
         .chown (runtime_dir_path h.RUNTIME_DIR_PARENT pw.pw_uid) pw.pw_uid pw.pw_gid none,
         .pam_misc_setenv "XDG_RUNTIME_DIR"
           (runtime_dir_path h.RUNTIME_DIR_PARENT pw.pw_uid) 1 PAM_SUCCESS] := by
  obtain ⟨hf, hco, hpe, _, hcase⟩ := success_inv h w user pw hu hp hok
  obtain ⟨_, _, f3, _, f5, _, _⟩ := run_frame h w user pw hu hp
  have key : ∃ (loc : Loc) (x : Inode), x.mode = 0o700 ∧
      place (pam_sm_open_session h w).world.fs
        (runtime_dir_path h.RUNTIME_DIR_PARENT pw.pw_uid) = .ok loc ∧
      (pam_sm_open_session h w).world.fs.inode loc
        = some (set_owner x pw.pw_uid pw.pw_gid) ∧
      mkdir h (pam_sm_open_session h w).world.fs
        (runtime_dir_path h.RUNTIME_DIR_PARENT pw.pw_uid) 0o700 = .error .EEXIST ∧
      (pam_sm_open_session h w).world.env "XDG_RUNTIME_DIR"
        = some (runtime_dir_path h.RUNTIME_DIR_PARENT pw.pw_uid) := by
    rcases hcase with ⟨pd, hmk, hnone, hpd, hkind, heq⟩ | ⟨loc, i, hmk, _, hpl, hi, heq⟩
    · obtain ⟨j, hj, hjk⟩ := f5 _ pd hpd
      refine ⟨.own (runtime_dir_path h.RUNTIME_DIR_PARENT pw.pw_uid), new_directory h pd 0o700,
        created_mode_keeps h pd (hfresh hnone pd hpd), ?_, ?_, ?_, ?_⟩
      · rw [heq]
        simp only [created_outcome, place_fs_update]
        exact place_fs_create_self _ _ _
      · rw [heq]
        simp only [created_outcome]
        exact fs_update_inode_same _ _ _
      · refine mkdir_exists h _ _ 0o700 j .file hmk hj (by rw [hjk]; exact hkind) ?_
        rw [heq]
        simp [created_outcome, fs_update, fs_create]
      · rw [heq]
        simp only [created_outcome, env_set_same]
    · refine ⟨loc, set_mode i 0o700, by show 0o700 &&& 0o7777 = 0o700; decide, ?_, ?_, ?_, ?_⟩
      · rw [heq]
        simp only [repaired_outcome, place_fs_update]
        exact hpl
      · rw [heq]
        simp only [repaired_outcome]
        exact fs_update_inode_same _ _ _
      · rcases mkdir_eexist h w.fs _ 0o700 hmk with hinj | ⟨hnat, ⟨pd, hpd, hkind⟩, x, hx⟩
        · exact mkdir_injected h _ _ 0o700 .EEXIST hinj
        · obtain ⟨j, hj, hjk⟩ := f5 _ pd hpd
          exact mkdir_exists h _ _ 0o700 j x hnat hj (by rw [hjk]; exact hkind) (f3 x hx)
      · rw [heq]
        simp only [repaired_outcome, env_set_same]
  obtain ⟨loc, x, hx, hpl, hi, hmk, henv⟩ := key
  have h2 := run_repaired h ⟨(pam_sm_open_session h w).world.fs, env2⟩ user pw loc
    (set_owner x pw.pw_uid pw.pw_gid) hu hp hf hmk hchmod hco hpe hpl hi henv2
  rw [h2]
  refine ⟨rfl, ?_, ?_, henv, rfl⟩
  · simp only [repaired_outcome, set_owner_set_mode_idem x _ _ hx]
    exact fs_update_self _ _ _ hi
  · simp only [repaired_outcome, env_set_same]
    exact henv.symm

/-- Witness of C2: the first and the second login of alice. -/
theorem second_login_keeps_state_witness :
    (pam_sm_open_session aliceHost freshWorld).rval = PAM_SUCCESS ∧
    (pam_sm_open_session aliceHost
        ⟨(pam_sm_open_session aliceHost freshWorld).world.fs, emptyEnv⟩).rval = PAM_SUCCESS ∧
    (pam_sm_open_session aliceHost
        ⟨(pam_sm_open_session aliceHost freshWorld).world.fs, emptyEnv⟩).world.fs
      = (pam_sm_open_session aliceHost freshWorld).world.fs :=
  ⟨by decide,
   (second_login_keeps_state aliceHost freshWorld "alice" ⟨1000, 1000⟩ rfl (by decide)
      (by decide)
      (fun _ pd hpd => by
        have h0 : stat freshWorld.fs
            (dirname (runtime_dir_path aliceHost.RUNTIME_DIR_PARENT 1000))
            = .ok ⟨.directory, 0o755, 0, 0, none⟩ := by decide
        have h1 : (Except.ok pd : Except Errno Inode) = .ok ⟨.directory, 0o755, 0, 0, none⟩ :=
          hpd.symm.trans h0
        injection h1 with h1
        subst h1
        exact ⟨by decide, by decide⟩)
      rfl emptyEnv rfl).1,
   (second_login_keeps_state aliceHost freshWorld "alice" ⟨1000, 1000⟩ rfl (by decide)
      (by decide)
      (fun _ pd hpd => by
        have h0 : stat freshWorld.fs
            (dirname (runtime_dir_path aliceHost.RUNTIME_DIR_PARENT 1000))
            = .ok ⟨.directory, 0o755, 0, 0, none⟩ := by decide
        have h1 : (Except.ok pd : Except Errno Inode) = .ok ⟨.directory, 0o755, 0, 0, none⟩ :=
          hpd.symm.trans h0
        injection h1 with h1
        subst h1
        exact ⟨by decide, by decide⟩)
      rfl emptyEnv rfl).2.1⟩

/-- Counterexample to C2 as stated.  (1) Run again on the very state the first
login of alice left, the function returns PAM_SESSION_ERR: XDG_RUNTIME_DIR is
set and `pam_misc_setenv` is called with readonly = 1.  In a new session:
(2) with umask 0277 the first login leaves mode 0500 and the second changes it
to 0700; (3) under a parent with the set-group-ID bit the first login leaves
mode 02700 and the second changes it to 0700; (4) under a parent whose default
access control list grants the owner r-x the first login leaves mode 0500 and
the second changes it to 0700; (5) when the caller may not `chmod`, the first
login succeeds without calling it and the second returns PAM_SESSION_ERR. -/
theorem second_login_keeps_state_counterexample :
    ((pam_sm_open_session aliceHost freshWorld).rval = PAM_SUCCESS ∧
     (pam_sm_open_session aliceHost (pam_sm_open_session aliceHost freshWorld).world).rval
       = PAM_SESSION_ERR) ∧
    ((pam_sm_open_session maskedHost freshWorld).rval = PAM_SUCCESS ∧
     stat (pam_sm_open_session maskedHost freshWorld).world.fs "/run/user/1000"
       = .ok ⟨.directory, 0o500, 1000, 1000, none⟩ ∧
     (pam_sm_open_session maskedHost
        ⟨(pam_sm_open_session maskedHost freshWorld).world.fs, emptyEnv⟩).rval = PAM_SUCCESS ∧
     stat (pam_sm_open_session maskedHost
        ⟨(pam_sm_open_session maskedHost freshWorld).world.fs, emptyEnv⟩).world.fs
          "/run/user/1000"
       = .ok ⟨.directory, 0o700, 1000, 1000, none⟩) ∧
    ((pam_sm_open_session aliceHost setgidWorld).rval = PAM_SUCCESS ∧
     stat (pam_sm_open_session aliceHost setgidWorld).world.fs "/run/user/1000"
       = .ok ⟨.directory, 0o2700, 1000, 1000, none⟩ ∧
     (pam_sm_open_session aliceHost
        ⟨(pam_sm_open_session aliceHost setgidWorld).world.fs, emptyEnv⟩).rval = PAM_SUCCESS ∧
     stat (pam_sm_open_session aliceHost
        ⟨(pam_sm_open_session aliceHost setgidWorld).world.fs, emptyEnv⟩).world.fs
          "/run/user/1000"
       = .ok ⟨.directory, 0o700, 1000, 1000, none⟩) ∧
    ((pam_sm_open_session aliceHost aclWorld).rval = PAM_SUCCESS ∧
     stat (pam_sm_open_session aliceHost aclWorld).world.fs "/run/user/1000"
       = .ok ⟨.directory, 0o500, 1000, 1000, some 0o500⟩ ∧
     (pam_sm_open_session aliceHost
        ⟨(pam_sm_open_session aliceHost aclWorld).world.fs, emptyEnv⟩).rval = PAM_SUCCESS ∧
     stat (pam_sm_open_session aliceHost
        ⟨(pam_sm_open_session aliceHost aclWorld).world.fs, emptyEnv⟩).world.fs
          "/run/user/1000"
       = .ok ⟨.directory, 0o700, 1000, 1000, some 0o500⟩) ∧
    ((pam_sm_open_session noChmodHost freshWorld).rval = PAM_SUCCESS ∧
     (pam_sm_open_session noChmodHost
        ⟨(pam_sm_open_session noChmodHost freshWorld).world.fs, emptyEnv⟩).rval
       = PAM_SESSION_ERR) := by
  decide

/-- C6.  For every invocation that returns PAM_SUCCESS, whatever the PAM
environment held before, the environment afterwards maps XDG_RUNTIME_DIR to
exactly the computed path, and that path is the one on which `mkdir` and
`chown` (and every other file-system call of the run) were issued. -/
theorem success_publishes_path (h : Host) (w : World) (user : String) (pw : Passwd)
    (hu : h.pam_get_user = some user) (hp : h.getpwnam user = some pw)
    (hok : (pam_sm_open_session h w).rval = PAM_SUCCESS) :
    (pam_sm_open_session h w).world.env "XDG_RUNTIME_DIR"
      = some (runtime_dir_path h.RUNTIME_DIR_PARENT pw.pw_uid) ∧
    (∃ r, Call.mkdir (runtime_dir_path h.RUNTIME_DIR_PARENT pw.pw_uid) 0o700 r
      ∈ (pam_sm_open_session h w).trace) ∧
    Call.chown (runtime_dir_path h.RUNTIME_DIR_PARENT pw.pw_uid) pw.pw_uid pw.pw_gid none
      ∈ (pam_sm_open_session h w).trace ∧
    ∀ c ∈ (pam_sm_open_session h w).trace, ∀ p, c.fsPath = some p →
      p = runtime_dir_path h.RUNTIME_DIR_PARENT pw.pw_uid := by
  obtain ⟨f1, _⟩ := run_frame h w user pw hu hp
  obtain ⟨_, _, _, _, hcase⟩ := success_inv h w user pw hu hp hok
  refine ⟨?_, ?_, ?_, ?_⟩
  · rcases hcase with ⟨pd, _, _, _, _, heq⟩ | ⟨loc, i, _, _, _, _, heq⟩ <;> rw [heq]
    · simp only [created_outcome, env_set_same]
    · simp only [repaired_outcome, env_set_same]
  · rcases hcase with ⟨pd, _, _, _, _, heq⟩ | ⟨loc, i, _, _, _, _, heq⟩ <;> rw [heq]
    · exact ⟨none, by simp [created_outcome]⟩
    · exact ⟨some .EEXIST, by simp [repaired_outcome]⟩
  · rcases hcase with ⟨pd, _, _, _, _, heq⟩ | ⟨loc, i, _, _, _, _, heq⟩ <;> rw [heq]
    · simp [created_outcome]
    · simp [repaired_outcome]
  · intro c hc p hcp
    rw [← fsPath_target c p hcp]
    exact f1 c hc

/-- Witness of C6: alice, uid 1000, gid 1000, parent /run/user, gives
XDG_RUNTIME_DIR=/run/user/1000. -/
theorem success_publishes_path_witness :
    (pam_sm_open_session aliceHost freshWorld).rval = PAM_SUCCESS ∧
    runtime_dir_path aliceHost.RUNTIME_DIR_PARENT 1000 = "/run/user/1000" ∧
    (pam_sm_open_session aliceHost freshWorld).world.env "XDG_RUNTIME_DIR"
      = some (runtime_dir_path aliceHost.RUNTIME_DIR_PARENT 1000) :=
  ⟨by decide, by decide,
   (success_publishes_path aliceHost freshWorld "alice" ⟨1000, 1000⟩ rfl (by decide)
      (by decide)).1⟩

/-- C7 (as amended).  Whatever the outcome of an invocation: every `mkdir`,
`chmod` and `chown` issued has the computed path as its argument; nothing is
removed (a name that exists stays what it is, and every path that led to a
file still leads to a file of the same kind); and every file other than the one
the computed path leads to is reached by the same paths as before with the same
kind, mode and owner.  The file the computed path leads to, directly or
through a symbolic or hard link, is the only one whose mode or owner can change.
When no identity is resolved nothing is issued and the file system is as
before. -/
theorem only_target_path_is_touched (h : Host) (w : World) :
    (∀ p e, w.fs.entry p = some e → (pam_sm_open_session h w).world.fs.entry p = some e) ∧
    (∀ p i, stat w.fs p = .ok i →
      ∃ j, stat (pam_sm_open_session h w).world.fs p = .ok j ∧ j.kind = i.kind) ∧
    (∀ user pw, h.pam_get_user = some user → h.getpwnam user = some pw →
      (∀ c ∈ (pam_sm_open_session h w).trace, ∀ p, c.fsPath = some p →
        p = runtime_dir_path h.RUNTIME_DIR_PARENT pw.pw_uid) ∧
      (∀ p loc, place w.fs p = .ok loc →
        place w.fs (runtime_dir_path h.RUNTIME_DIR_PARENT pw.pw_uid) ≠ .ok loc →
        stat (pam_sm_open_session h w).world.fs p = stat w.fs p) ∧
      (∀ loc, loc ≠ .own (runtime_dir_path h.RUNTIME_DIR_PARENT pw.pw_uid) →
        place w.fs (runtime_dir_path h.RUNTIME_DIR_PARENT pw.pw_uid) ≠ .ok loc →
        (pam_sm_open_session h w).world.fs.inode loc = w.fs.inode loc)) ∧
    ((∀ user, h.pam_get_user = some user → h.getpwnam user = none) →
      (pam_sm_open_session h w).trace = [] ∧ (pam_sm_open_session h w).world.fs = w.fs) := by
  have hunres : (∀ user, h.pam_get_user = some user → h.getpwnam user = none) →
      pam_sm_open_session h w = ⟨PAM_SESSION_ERR, w, []⟩ := by
    intro hno
    cases hu : h.pam_get_user with
    | none => exact run_no_user h w hu
    | some user => exact run_unknown_user h w user hu (hno user hu)
  refine ⟨?_, ?_, ?_, ?_⟩
  · intro p e he
    cases hu : h.pam_get_user with
    | none => rw [run_no_user h w hu]; exact he
    | some user =>
      cases hp : h.getpwnam user with
      | none => rw [run_unknown_user h w user hu hp]; exact he
      | some pw =>
        obtain ⟨_, f2, f3, _⟩ := run_frame h w user pw hu hp
        by_cases hpp : p = runtime_dir_path h.RUNTIME_DIR_PARENT pw.pw_uid
        · subst hpp
          exact f3 e he
        · rw [f2 p hpp]; exact he
  · intro p i hs
    cases hu : h.pam_get_user with
    | none => rw [run_no_user h w hu]; exact ⟨i, hs, rfl⟩
    | some user =>
      cases hp : h.getpwnam user with
      | none => rw [run_unknown_user h w user hu hp]; exact ⟨i, hs, rfl⟩
      | some pw =>
        obtain ⟨_, _, _, _, f5, _⟩ := run_frame h w user pw hu hp
        exact f5 p i hs
  · intro user pw hu hp
    obtain ⟨f1, _, _, f4, _, _, _⟩ := run_frame h w user pw hu hp
    refine ⟨?_, fun p loc hpl hdiff => run_frame_stat h w user pw hu hp p loc hpl hdiff, f4⟩
    intro c hc p hcp
    rw [← fsPath_target c p hcp]
    exact f1 c hc
  · intro hno
    rw [hunres hno]
    exact ⟨rfl, rfl⟩

/-- Witness of C7: the login of alice over a drifted directory leaves the
parent directory as it was and keeps a directory at her path. -/
theorem only_target_path_is_touched_witness :
    place driftedWorld.fs "/run/user" = .ok (.own "/run/user") ∧
    stat (pam_sm_open_session aliceHost driftedWorld).world.fs "/run/user"
      = stat driftedWorld.fs "/run/user" ∧
    ∃ j, stat (pam_sm_open_session aliceHost driftedWorld).world.fs "/run/user/1000"
        = .ok j ∧ j.kind = FileKind.directory :=
  ⟨by decide,
   ((only_target_path_is_touched aliceHost driftedWorld).2.2.1 "alice" ⟨1000, 1000⟩ rfl
      (by decide)).2.1 "/run/user" (.own "/run/user") (by decide) (by decide),
   (only_target_path_is_touched aliceHost driftedWorld).2.1 "/run/user/1000"
      ⟨.directory, 0o755, 0, 0, none⟩ (by decide)⟩

/-- Counterexample to C7 as stated.  (1) When the path of alice is a symbolic
link to the directory `/srv/app`, her login returns PAM_SUCCESS and the entry
at the other path `/srv/app` goes from mode 0755 owned by root to mode 0700
owned by 1000:1000, because `chmod` and `chown` follow the link.  (2) When her
path is a second hard-linked name of the file `/run/sshd.pid`, the entry at the
other path `/run/sshd.pid` changes in the same way.  (3) When her path does not
exist and the other path `/home/alice/rt` is a symbolic link to it, that other
path leads nowhere before her login and to the new directory after it. -/
theorem only_target_path_is_touched_counterexample :
    ("/srv/app" ≠ runtime_dir_path aliceHost.RUNTIME_DIR_PARENT 1000 ∧
     linkWorld.fs.entry (runtime_dir_path aliceHost.RUNTIME_DIR_PARENT 1000)
       = some (.symlink "/srv/app") ∧
     stat linkWorld.fs "/srv/app" = .ok ⟨.directory, 0o755, 0, 0, none⟩ ∧
     (pam_sm_open_session aliceHost linkWorld).rval = PAM_SUCCESS ∧
     stat (pam_sm_open_session aliceHost linkWorld).world.fs "/srv/app"
       = .ok ⟨.directory, 0o700, 1000, 1000, none⟩) ∧
    ("/run/sshd.pid" ≠ runtime_dir_path aliceHost.RUNTIME_DIR_PARENT 1000 ∧
     hardlinkWorld.fs.entry (runtime_dir_path aliceHost.RUNTIME_DIR_PARENT 1000)
       = some (.hardlink 7) ∧
     stat hardlinkWorld.fs "/run/sshd.pid" = .ok ⟨.regular, 0o644, 0, 0, none⟩ ∧
     (pam_sm_open_session aliceHost hardlinkWorld).rval = PAM_SUCCESS ∧
     stat (pam_sm_open_session aliceHost hardlinkWorld).world.fs "/run/sshd.pid"
       = .ok ⟨.regular, 0o700, 1000, 1000, none⟩) ∧
    ("/home/alice/rt" ≠ runtime_dir_path aliceHost.RUNTIME_DIR_PARENT 1000 ∧
     danglingWorld.fs.entry (runtime_dir_path aliceHost.RUNTIME_DIR_PARENT 1000) = none ∧
     stat danglingWorld.fs "/home/alice/rt" = .error .ENOENT ∧
     (pam_sm_open_session aliceHost danglingWorld).rval = PAM_SUCCESS ∧
     stat (pam_sm_open_session aliceHost danglingWorld).world.fs "/home/alice/rt"
       = .ok ⟨.directory, 0o700, 1000, 1000, none⟩) := by
  decide

/-- C8 (as amended).  For a fixed parent and two different uids of the `uid_t`
range the computed paths are different strings.  An invocation for the first
uid issues no `mkdir`, `chmod` or `chown` on the path of the second and does
not change what that name is; and it leaves the file that the path of the
second leads to exactly as it was, unless the path of the first leads to that
same file (through a symbolic or hard link). -/
theorem distinct_uids_have_distinct_paths (parent : String) (u1 u2 : Nat)
    (h1 : u1 < 2 ^ UID_BITS) (h2 : u2 < 2 ^ UID_BITS) (hne : u1 ≠ u2) :
    runtime_dir_path parent u1 ≠ runtime_dir_path parent u2 ∧
    ∀ (h : Host) (w : World) (user : String) (pw : Passwd),
      h.RUNTIME_DIR_PARENT = parent → h.pam_get_user = some user →
      h.getpwnam user = some pw → pw.pw_uid = u1 →
      (∀ c ∈ (pam_sm_open_session h w).trace,
        c.fsPath ≠ some (runtime_dir_path parent u2)) ∧
      (pam_sm_open_session h w).world.fs.entry (runtime_dir_path parent u2)
        = w.fs.entry (runtime_dir_path parent u2) ∧
      (∀ loc2, place w.fs (runtime_dir_path parent u2) = .ok loc2 →
        place w.fs (runtime_dir_path parent u1) ≠ .ok loc2 →
        stat (pam_sm_open_session h w).world.fs (runtime_dir_path parent u2)
          = stat w.fs (runtime_dir_path parent u2)) := by
  have hpne : runtime_dir_path parent u1 ≠ runtime_dir_path parent u2 :=
    fun heq => hne (runtime_dir_path_injective parent u1 u2 h1 h2 heq)
  refine ⟨hpne, ?_⟩
  intro h w user pw hpar hu hp huid
  subst hpar
  subst huid
  obtain ⟨f1, f2, _⟩ := run_frame h w user pw hu hp
  refine ⟨?_, f2 _ (Ne.symm hpne), ?_⟩
  · intro c hc hcp
    have := f1 c hc
    rw [fsPath_target c _ hcp] at this
    exact hpne this.symm
  · intro loc2 hpl2 hdiff
    exact run_frame_stat h w user pw hu hp _ loc2 hpl2 hdiff

/-- Witness of C8: uids 1000 and 1001 under /run/user; the login of alice
does not change what the name /run/user/1001 is. -/
theorem distinct_uids_have_distinct_paths_witness :
    runtime_dir_path "/run/user" 1000 ≠ runtime_dir_path "/run/user" 1001 ∧
    (pam_sm_open_session aliceHost freshWorld).world.fs.entry
        (runtime_dir_path "/run/user" 1001)
      = freshWorld.fs.entry (runtime_dir_path "/run/user" 1001) :=
  ⟨(distinct_uids_have_distinct_paths "/run/user" 1000 1001 (by decide) (by decide)
      (by decide)).1,
   ((distinct_uids_have_distinct_paths "/run/user" 1000 1001 (by decide) (by decide)
      (by decide)).2 aliceHost freshWorld "alice" ⟨1000, 1000⟩ rfl rfl (by decide) rfl).2.1⟩

/-- Counterexample to C8 as stated.  When the path of alice (uid 1000) is a
symbolic link to `/run/user/1001`, the runtime directory of the user 1001, her
login returns PAM_SUCCESS and that directory goes from owner 1001:1001 to owner
1000:1000: the invocation for uid 1000 has chowned the runtime directory of uid
1001. -/
theorem distinct_uids_have_distinct_paths_counterexample :
    runtime_dir_path aliceHost.RUNTIME_DIR_PARENT 1001 = "/run/user/1001" ∧
    crossWorld.fs.entry (runtime_dir_path aliceHost.RUNTIME_DIR_PARENT 1000)
      = some (.symlink "/run/user/1001") ∧
    stat crossWorld.fs (runtime_dir_path aliceHost.RUNTIME_DIR_PARENT 1001)
      = .ok ⟨.directory, 0o700, 1001, 1001, none⟩ ∧
    (pam_sm_open_session aliceHost crossWorld).rval = PAM_SUCCESS ∧
    (pam_sm_open_session aliceHost crossWorld).trace
      = [.mkdir "/run/user/1000" 0o700 (some .EEXIST),
         .chmod "/run/user/1000" 0o700 none,
         .chown "/run/user/1000" 1000 1000 none,
         .pam_misc_setenv "XDG_RUNTIME_DIR" "/run/user/1000" 1 PAM_SUCCESS] ∧
    stat (pam_sm_open_session aliceHost crossWorld).world.fs
        (runtime_dir_path aliceHost.RUNTIME_DIR_PARENT 1001)
      = .ok ⟨.directory, 0o700, 1000, 1000, none⟩ := by
  decide

/-- C10.  The kind of an existing entry is never checked.  When the path of
alice names a regular file (mode 0644, owned by root), `mkdir` fails with
EEXIST, `chmod` and `chown` are applied to the file and succeed, the function
returns PAM_SUCCESS and publishes the path in XDG_RUNTIME_DIR, and afterwards
the path still names a regular file, not a directory. -/
theorem regular_file_is_accepted_as_runtime_dir :
    runtime_dir_path aliceHost.RUNTIME_DIR_PARENT 1000 = "/run/user/1000" ∧
    fileWorld.fs.entry "/run/user/1000" = some .file ∧
    stat fileWorld.fs "/run/user/1000" = .ok ⟨.regular, 0o644, 0, 0, none⟩ ∧
    (pam_sm_open_session aliceHost fileWorld).trace
      = [.mkdir "/run/user/1000" 0o700 (some .EEXIST),
         .chmod "/run/user/1000" 0o700 none,
         .chown "/run/user/1000" 1000 1000 none,
         .pam_misc_setenv "XDG_RUNTIME_DIR" "/run/user/1000" 1 PAM_SUCCESS] ∧
    (pam_sm_open_session aliceHost fileWorld).rval = PAM_SUCCESS ∧
    (pam_sm_open_session aliceHost fileWorld).world.env "XDG_RUNTIME_DIR"
      = some "/run/user/1000" ∧
    (pam_sm_open_session aliceHost fileWorld).world.fs.entry "/run/user/1000"
      = some .file ∧
    stat (pam_sm_open_session aliceHost fileWorld).world.fs "/run/user/1000"
      = .ok ⟨.regular, 0o700, 1000, 1000, none⟩ := by
  decide

/-- C9.  Once the path is formatted: a `chmod` is attempted if and only if
`mkdir` fails with EEXIST, and it is `chmod(path, 0700)`; when `mkdir` fails
with any other error the function returns PAM_SESSION_ERR having issued nothing
but that `mkdir`, so the file system and the environment are unchanged; a
`chown` is attempted exactly when `mkdir` succeeded or failed with EEXIST and
the repairing `chmod` succeeded, and it is `chown(path, uid, gid)`. -/
theorem create_or_repair_branching (h : Host) (w : World) (user : String) (pw : Passwd)
    (hu : h.pam_get_user = some user) (hp : h.getpwnam user = some pw)
    (hfmt : h.asprintf_fails = false) :
    ((∃ c ∈ (pam_sm_open_session h w).trace, c.isChmod = true) ↔
      mkdir h w.fs (runtime_dir_path h.RUNTIME_DIR_PARENT pw.pw_uid) 0o700
        = .error .EEXIST) ∧
    (∀ c ∈ (pam_sm_open_session h w).trace, c.isChmod = true →
      ∃ r, c = .chmod (runtime_dir_path h.RUNTIME_DIR_PARENT pw.pw_uid) 0o700 r) ∧
    (∀ e, mkdir h w.fs (runtime_dir_path h.RUNTIME_DIR_PARENT pw.pw_uid) 0o700 = .error e →
      e ≠ .EEXIST →
      (pam_sm_open_session h w).rval = PAM_SESSION_ERR ∧
      (pam_sm_open_session h w).world = w ∧
      (pam_sm_open_session h w).trace
        = [.mkdir (runtime_dir_path h.RUNTIME_DIR_PARENT pw.pw_uid) 0o700 (some e)]) ∧
    ((∃ c ∈ (pam_sm_open_session h w).trace, c.isChown = true) ↔
      ((∃ fs1, mkdir h w.fs (runtime_dir_path h.RUNTIME_DIR_PARENT pw.pw_uid) 0o700
          = .ok fs1) ∨
       (mkdir h w.fs (runtime_dir_path h.RUNTIME_DIR_PARENT pw.pw_uid) 0o700
          = .error .EEXIST ∧
        ∃ fs1, chmod h w.fs (runtime_dir_path h.RUNTIME_DIR_PARENT pw.pw_uid) 0o700
          = .ok fs1))) ∧
    (∀ c ∈ (pam_sm_open_session h w).trace, c.isChown = true →
      ∃ r, c = .chown (runtime_dir_path h.RUNTIME_DIR_PARENT pw.pw_uid)
        pw.pw_uid pw.pw_gid r) := by
  generalize hpath : runtime_dir_path h.RUNTIME_DIR_PARENT pw.pw_uid = path
  simp only [pam_sm_open_session, hu, hp, asprintf_path, hpath, hfmt, Bool.false_eq_true,
    if_false]
  cases hm : mkdir h w.fs path 0o700 with
  | ok fs1 =>
    simp only []
    obtain ⟨r, rest, htr, hrest⟩ :=
      chown_and_publish_trace h pw path ⟨fs1, w.env⟩ [.mkdir path 0o700 none]
    rw [htr]
    refine ⟨⟨?_, ?_⟩, ?_, ?_, ⟨?_, ?_⟩, ?_⟩
    · rintro ⟨c, hc, hcm⟩
      simp only [List.mem_append, List.mem_cons, List.mem_singleton, List.not_mem_nil,
        or_false] at hc
      rcases hc with hc | hc | hc
      · rw [hc] at hcm; simp [Call.isChmod] at hcm
      · rw [hc] at hcm; simp [Call.isChmod] at hcm
      · rw [(hrest c hc).1] at hcm; simp at hcm
    · intro hcontra
      simp at hcontra
    · intro c hc hcm
      simp only [List.mem_append, List.mem_cons, List.mem_singleton, List.not_mem_nil,
        or_false] at hc
      rcases hc with hc | hc | hc
      · rw [hc] at hcm; simp [Call.isChmod] at hcm
      · rw [hc] at hcm; simp [Call.isChmod] at hcm
      · rw [(hrest c hc).1] at hcm; simp at hcm
    · intro e he
      simp at he
    · intro _
      exact Or.inl ⟨fs1, rfl⟩
    · intro _
      exact ⟨.chown path pw.pw_uid pw.pw_gid r, by simp, rfl⟩
    · intro c hc hcm
      simp only [List.mem_append, List.mem_cons, List.mem_singleton, List.not_mem_nil,
        or_false] at hc
      rcases hc with hc | hc | hc
      · rw [hc] at hcm; simp [Call.isChown] at hcm
      · exact ⟨r, hc⟩
      · rw [(hrest c hc).2] at hcm; simp at hcm
  | error e =>
    simp only []
    by_cases he : e = .EEXIST
    · subst he
      simp only [ne_eq, not_true_eq_false, if_false]
      cases hc : chmod h w.fs path 0o700 with
      | error e2 =>
        simp only []
        refine ⟨⟨fun _ => trivial, ?_⟩, ?_, ?_, ⟨?_, ?_⟩, ?_⟩
        · intro _
          exact ⟨.chmod path 0o700 (some e2), by simp, rfl⟩
        · intro c hcm hch
          simp only [List.mem_cons, List.mem_singleton, List.not_mem_nil, or_false] at hcm
          rcases hcm with hcm | hcm
          · rw [hcm] at hch; simp [Call.isChmod] at hch
          · exact ⟨some e2, hcm⟩
        · intro e' he' hne
          simp at he'
          exact absurd he'.symm hne
        · rintro ⟨c, hcm, hch⟩
          simp only [List.mem_cons, List.mem_singleton, List.not_mem_nil, or_false] at hcm
          rcases hcm with hcm | hcm <;> (rw [hcm] at hch; simp [Call.isChown] at hch)
        · intro hcontra
          simp at hcontra
        · intro c hcm hch
          simp only [List.mem_cons, List.mem_singleton, List.not_mem_nil, or_false] at hcm
          rcases hcm with hcm | hcm <;> (rw [hcm] at hch; simp [Call.isChown] at hch)
      | ok fs1 =>
        simp only []
        obtain ⟨r, rest, htr, hrest⟩ :=
          chown_and_publish_trace h pw path ⟨fs1, w.env⟩
            [.mkdir path 0o700 (some .EEXIST), .chmod path 0o700 none]
        rw [htr]
        refine ⟨⟨fun _ => trivial, ?_⟩, ?_, ?_, ⟨?_, ?_⟩, ?_⟩
        · intro _
          exact ⟨.chmod path 0o700 none, by simp, rfl⟩
        · intro c hcm hch
          simp only [List.mem_append, List.mem_cons, List.mem_singleton, List.not_mem_nil,
            or_false] at hcm
          rcases hcm with (hcm | hcm) | hcm | hcm
          · rw [hcm] at hch; simp [Call.isChmod] at hch
          · exact ⟨none, hcm⟩
          · rw [hcm] at hch; simp [Call.isChmod] at hch
          · rw [(hrest c hcm).1] at hch; simp at hch
        · intro e' he' hne
          simp at he'
          exact absurd he'.symm hne
        · intro _
          exact Or.inr ⟨trivial, fs1, rfl⟩
        · intro _
          exact ⟨.chown path pw.pw_uid pw.pw_gid r, by simp, rfl⟩
        · intro c hcm hch
          simp only [List.mem_append, List.mem_cons, List.mem_singleton, List.not_mem_nil,
            or_false] at hcm
          rcases hcm with (hcm | hcm) | hcm | hcm
          · rw [hcm] at hch; simp [Call.isChown] at hch
          · rw [hcm] at hch; simp [Call.isChown] at hch
          · exact ⟨r, hcm⟩
          · rw [(hrest c hcm).2] at hch; simp at hch
    · simp only [ne_eq, he, not_false_eq_true, if_true]
      refine ⟨⟨?_, ?_⟩, ?_, ?_, ⟨?_, ?_⟩, ?_⟩
      · rintro ⟨c, hcm, hch⟩
        simp only [List.mem_singleton] at hcm
        rw [hcm] at hch; simp [Call.isChmod] at hch
      · intro hcontra
        simp at hcontra
        exact absurd hcontra he
      · intro c hcm hch
        simp only [List.mem_singleton] at hcm
        rw [hcm] at hch; simp [Call.isChmod] at hch
      · intro e' he' _
        simp at he'
        subst he'
        simp
      · rintro ⟨c, hcm, hch⟩
        simp only [List.mem_singleton] at hcm
        rw [hcm] at hch; simp [Call.isChown] at hch
      · intro hcontra
        simp at hcontra
        exact absurd hcontra.1 he
      · intro c hcm hch
        simp only [List.mem_singleton] at hcm
        rw [hcm] at hch; simp [Call.isChown] at hch

/-- Witness of C9: on a host where `mkdir` fails with EACCES the login of
alice issues that `mkdir` and nothing else. -/
theorem create_or_repair_branching_witness :
    deniedHost.asprintf_fails = false ∧
    (pam_sm_open_session deniedHost freshWorld).rval = PAM_SESSION_ERR ∧
    (pam_sm_open_session deniedHost freshWorld).world = freshWorld ∧
    (pam_sm_open_session deniedHost freshWorld).trace
      = [.mkdir (runtime_dir_path deniedHost.RUNTIME_DIR_PARENT 1000) 0o700
          (some .EACCES)] :=
  ⟨rfl,
   (create_or_repair_branching deniedHost freshWorld "alice" ⟨1000, 1000⟩ rfl (by decide)
      rfl).2.2.1 .EACCES rfl (by decide)⟩

end DumbRuntimeDir
